import Mathlib

/-!
# Ghost: the per-frame simulation core of `main.go`

A shallow embedding of `Game.Update` and the helpers it calls.

Conventions of the embedding

* `float64` positions and speeds are exact rationals (`ℚ`).
* Go `int` counters are `Int`; they move by one per event and start at zero, so
  the 64-bit wrap is out of reach and is not modelled.
* The engine's input state is a record `Input`, polled once per tick.  The two
  calls of `videoPlayer.IsPlaying()` in `Update` are two separate observations.
* `math/rand` is a stream of results `Rng`; each call consumes the next one.
* `math.Sqrt` is a parameter `sqrt : ℚ → ℚ` of the functions that use it.
* Audio and video commands (`Play`, `Pause`, `Rewind`) act on the external
  players only and leave no trace in `Game`; they are assumed to succeed.
* A `return nil` in the middle of `Update` is the constructor `Flow.done`.
-/

namespace Ghost

/-! ## Constants and enumerations -/

def screenWidth : ℚ := 640

def screenHeight : ℚ := 480

inductive Language where
  | unset
  | English
  | Ukrainian
  deriving DecidableEq, Repr

inductive GameMode where
  | Competition
  | Story
  deriving DecidableEq, Repr

inductive StoryChapter where
  | Chapter1
  deriving DecidableEq, Repr

inductive StoryLevel where
  | Level1
  | Level2
  | Level3
  deriving DecidableEq, Repr

/-! ## Entities -/

structure Player where
  x : ℚ
  y : ℚ
  speed : ℚ
  isShooting : Bool
  shootCoolDown : Int
  deriving DecidableEq

structure PlayerBullet where
  x : ℚ
  y : ℚ
  speed : ℚ
  active : Bool
  deriving DecidableEq

structure Enemy where
  x : ℚ
  y : ℚ
  speedY : ℚ
  active : Bool
  hasShot : Bool
  deriving DecidableEq

structure EnemyBullet where
  x : ℚ
  y : ℚ
  speedX : ℚ
  speedY : ℚ
  active : Bool
  deriving DecidableEq

structure Boss where
  x : ℚ
  y : ℚ
  speedX : ℚ
  speedY : ℚ
  active : Bool
  health : Int
  shotCooldown : Int
  shotCounter : Int
  deriving DecidableEq

structure PowerUp where
  x : ℚ
  y : ℚ
  active : Bool
  speedY : ℚ
  deriving DecidableEq

/-- The anonymous Go interface `{ getX() float64; getY() float64 }`. -/
class Positioned (α : Type) where
  getX : α → ℚ
  getY : α → ℚ

instance : Positioned Player := ⟨Player.x, Player.y⟩

instance : Positioned PlayerBullet := ⟨PlayerBullet.x, PlayerBullet.y⟩

instance : Positioned Enemy := ⟨Enemy.x, Enemy.y⟩

instance : Positioned EnemyBullet := ⟨EnemyBullet.x, EnemyBullet.y⟩

instance : Positioned Boss := ⟨Boss.x, Boss.y⟩

instance : Positioned PowerUp := ⟨PowerUp.x, PowerUp.y⟩

/-- The state fields of the Go struct `Game` (asset and player handles left out). -/
structure Game where
  gameMode : GameMode
  player : Player
  enemies : List Enemy
  playerBullets : List PlayerBullet
  score : Int
  playerLives : Int
  isGameOver : Bool
  frameCount : Int
  bgOffsetY : ℚ
  powerUp : PowerUp
  powerUpCounter : Int
  enemyBullets : List EnemyBullet
  isPaused : Bool
  clickedButton : Bool
  startScreenActive : Bool
  storyChapter : StoryChapter
  storyLevel : StoryLevel
  showLevelScreen : Bool
  showLevelCompleted : Bool
  levelScreenCounter : Int
  levelCompletedScreenCounter : Int
  levelScreenShown : Bool
  gameCompleted : Bool
  boss : Boss
  isBossActive : Bool
  currentChapter : StoryChapter
  showStartButton : Bool
  language : Language
  languageScreenActive : Bool
  videoScreenCounter : Int
  showVideoScreen : Bool

/-! ## External collaborators -/

/-- What the engine reports during one tick. -/
structure Input where
  keyE : Bool
  keyU : Bool
  key1 : Bool
  key2 : Bool
  keyEnter : Bool
  keyEscape : Bool
  keyArrowLeft : Bool
  keyArrowRight : Bool
  keyArrowUp : Bool
  keyArrowDown : Bool
  mouseButtonLeft : Bool
  cursorX : Int
  cursorY : Int
  /-- Result of the first `g.videoPlayer.IsPlaying()` of the tick. -/
  videoIsPlaying : Bool
  /-- Result of the second `g.videoPlayer.IsPlaying()`, asked in the `else if`. -/
  videoIsPlayingAgain : Bool

/-- The process-wide random source: the results of the successive calls of
`rand.Intn(100)` and of `rand.Float64()`. -/
structure Rng where
  intn : Nat → Nat
  float64 : Nat → ℚ

/-- One call of `rand.Intn(100)`. -/
def Rng.nextIntn (r : Rng) : Nat × Rng :=
  (r.intn 0, { r with intn := fun k => r.intn (k + 1) })

/-- One call of `rand.Float64()`. -/
def Rng.nextFloat64 (r : Rng) : ℚ × Rng :=
  (r.float64 0, { r with float64 := fun k => r.float64 (k + 1) })

/-- Outcome of a stretch of `Update`: `done` is a `return nil`, `next` falls
through to the code below. -/
inductive Flow where
  | done (g : Game)
  | next (g : Game)

/-! ## Helpers of `main.go` -/

def clamp (value min max : ℚ) : ℚ :=
  if value < min then min
  else if value > max then max
  else value

def collision {α β : Type} [Positioned α] [Positioned β] (a : α) (b : β) : Bool :=
  decide (Positioned.getX a < Positioned.getX b + 32) &&
  decide (Positioned.getX a + 32 > Positioned.getX b) &&
  decide (Positioned.getY a < Positioned.getY b + 32) &&
  decide (Positioned.getY a + 32 > Positioned.getY b)

def initializeGame (g : Game) : Game :=
  { g with
    player := { g.player with x := screenWidth / 2, y := screenHeight - 50 }
    enemies := []
    playerBullets := []
    isGameOver := false
    playerLives := 3
    score := 0
    enemyBullets := []
    bgOffsetY := 0
    powerUp := { x := 0, y := 0, active := false, speedY := 0 }
    powerUpCounter := 0
    isPaused := false
    clickedButton := false }

def initializeLevel (level : StoryLevel) (g : Game) : Game :=
  match level with
  | .Level1 => { g with enemies := [], playerBullets := [], score := 0 }
  | .Level2 => { g with enemies := [], playerBullets := [], score := 0 }
  | .Level3 => { g with enemies := [], playerBullets := [], score := 0 }

/-! ## `Game.Update`, before the gameplay step -/

/-- Language selection (the `if g.languageScreenActive` block, before its `return nil`). -/
def languageScreen (inp : Input) (g : Game) : Game :=
  if inp.keyE then
    { g with language := .English, languageScreenActive := false, startScreenActive := true }
  else if inp.keyU then
    { g with language := .Ukrainian, languageScreenActive := false, startScreenActive := true }
  else g

/-- Mode selection (the `if g.startScreenActive` block, before its `return nil`). -/
def startScreen (inp : Input) (g : Game) : Game :=
  if inp.key1 then
    initializeGame { g with gameMode := .Competition, startScreenActive := false }
  else if inp.key2 then
    initializeGame (initializeLevel .Level1
      { g with gameMode := .Story, startScreenActive := false,
               storyChapter := .Chapter1, storyLevel := .Level1 })
  else g

def LevelScreenDuration : Int := 3 * 60

def VideoScreenDuration : Int := 3 * 60

/-- The video step that opens the `if g.gameMode == Story` block. -/
def storyVideo (inp : Input) (g : Game) : Flow :=
  if !inp.videoIsPlaying then
    .next { g with showVideoScreen := true, videoScreenCounter := VideoScreenDuration }
  else if inp.videoIsPlayingAgain then
    let g1 := { g with videoScreenCounter := g.videoScreenCounter - 1 }
    if g1.videoScreenCounter ≤ 0 then .done { g1 with showVideoScreen := false }
    else .done g1
  else .next g

/-- The branch `case Level1` of the story switch. -/
def storyLevel1 (g : Game) : Flow :=
  if !g.showVideoScreen && !g.levelScreenShown then
    .done { g with showLevelScreen := true, levelScreenCounter := LevelScreenDuration,
                   levelScreenShown := true }
  else if g.showLevelScreen then
    let g1 := { g with levelScreenCounter := g.levelScreenCounter - 1 }
    if g1.levelScreenCounter ≤ 0 then .done { g1 with showLevelScreen := false }
    else .done g1
  else if decide (g.score ≥ 1) && !g.showLevelCompleted then
    .next { g with showLevelCompleted := true,
                   levelCompletedScreenCounter := LevelScreenDuration }
  else if g.showLevelCompleted then
    let g1 := { g with levelCompletedScreenCounter := g.levelCompletedScreenCounter - 1 }
    let g2 :=
      if g1.levelCompletedScreenCounter ≤ 0 then
        initializeLevel .Level2 { g1 with showLevelCompleted := false, storyLevel := .Level2 }
      else g1
    if g2.storyLevel = .Level2 then
      .next { g2 with enemies := [], playerBullets := [], enemyBullets := [] }
    else .next g2
  else .next g

/-- The branch `case Level2` of the story switch. -/
def storyLevel2 (g : Game) : Flow :=
  if !g.levelScreenShown then
    .done { g with showLevelScreen := true, levelScreenCounter := LevelScreenDuration,
                   levelScreenShown := true }
  else if g.showLevelScreen then
    let g1 := { g with levelScreenCounter := g.levelScreenCounter - 1 }
    if g1.levelScreenCounter ≤ 0 then .done { g1 with showLevelScreen := false }
    else .done g1
  else if decide (g.score ≥ 2) && !g.showLevelCompleted then
    .next { g with showLevelCompleted := true,
                   levelCompletedScreenCounter := LevelScreenDuration }
  else if g.showLevelCompleted then
    let g1 := { g with levelCompletedScreenCounter := g.levelCompletedScreenCounter - 1 }
    let g2 :=
      if g1.levelCompletedScreenCounter ≤ 0 then
        initializeLevel .Level3 { g1 with showLevelCompleted := false, storyLevel := .Level3 }
      else g1
    if g2.storyLevel = .Level3 then
      .next { g2 with enemies := [], playerBullets := [], enemyBullets := [] }
    else .next g2
  else .next g

/-- The branch `case Level3` of the story switch. -/
def storyLevel3 (g : Game) : Flow :=
  if !g.levelScreenShown then
    .done { g with showLevelScreen := true, levelScreenCounter := LevelScreenDuration,
                   levelScreenShown := true }
  else if g.showLevelScreen then
    let g1 := { g with levelScreenCounter := g.levelScreenCounter - 1 }
    if g1.levelScreenCounter ≤ 0 then .done { g1 with showLevelScreen := false }
    else .done g1
  else if decide (g.score ≥ 2) && !g.gameCompleted && !g.isBossActive then
    let g1 :=
      { g with
        enemies := []
        enemyBullets := []
        isBossActive := true
        boss := { x := screenWidth / 2, y := 50, speedX := 2, speedY := 2, active := true,
                  health := 10, shotCooldown := 60, shotCounter := 0 } }
    let g2 :=
      if !g1.boss.active && !g1.isBossActive then { g1 with gameCompleted := true } else g1
    if g2.gameCompleted then .done g2 else .next g2
  else .next g

/-- The whole `if g.gameMode == Story` block. -/
def storySequencer (inp : Input) (g : Game) : Flow :=
  if g.gameMode = .Story then
    match storyVideo inp g with
    | .done g1 => .done g1
    | .next g1 =>
      match g1.storyChapter with
      | .Chapter1 =>
        match g1.storyLevel with
        | .Level1 => storyLevel1 g1
        | .Level2 => storyLevel2 g1
        | .Level3 => storyLevel3 g1
  else .next g

/-- The pause/resume button: a 32x32 hit area at `(screenWidth-50, screenHeight-470)`. -/
def pauseButton (inp : Input) (g : Game) : Game :=
  if inp.mouseButtonLeft then
    let bX : Int := 640 - 50
    let bY : Int := 480 - 470
    let buttonWidth : Int := 32
    let buttonHeight : Int := 32
    if decide (inp.cursorX ≥ bX) && decide (inp.cursorX ≤ bX + buttonWidth) &&
        decide (inp.cursorY ≥ bY) && decide (inp.cursorY ≤ bY + buttonHeight) then
      { (if g.isPaused then { g with isPaused := false } else { g with isPaused := true })
        with clickedButton := true }
    else g
  else g

/-- The menu button: a 32x32 hit area at `(screenWidth-110, screenHeight-470)`. -/
def menuButton (inp : Input) (g : Game) : Game :=
  if inp.mouseButtonLeft then
    let buttonX : Int := 640 - 110
    let buttonY : Int := 480 - 470
    let buttonWidth : Int := 32
    let buttonHeight : Int := 32
    if decide (inp.cursorX ≥ buttonX) && decide (inp.cursorX ≤ buttonX + buttonWidth) &&
        decide (inp.cursorY ≥ buttonY) && decide (inp.cursorY ≤ buttonY + buttonHeight) then
      { g with startScreenActive := true, clickedButton := true }
    else { g with clickedButton := false }
  else g

/-- The game-over check and the game-over screen. -/
def gameOverCheck (inp : Input) (g : Game) : Flow :=
  let g1 := if g.playerLives ≤ 0 then { g with isGameOver := true } else g
  if g1.isGameOver then
    if inp.keyEnter then .done (initializeGame g1)
    else if inp.keyEscape then .done { g1 with startScreenActive := true }
    else .done g1
  else .next g1

/-- `Update` from its first line to the pause test: `next` when the game-over
check is reached. -/
def beforeGameOverCheck (inp : Input) (g : Game) : Flow :=
  if g.languageScreenActive then .done (languageScreen inp g)
  else if g.startScreenActive then .done (startScreen inp g)
  else
    match storySequencer inp g with
    | .done g1 => .done g1
    | .next g1 =>
      let g2 := menuButton inp (pauseButton inp g1)
      if g2.isPaused then .done g2 else .next g2

/-- `Update` from its first line to the `// Player controls` comment: `next g1`
when the gameplay step is reached, in state `g1`. -/
def beforeGameplay (inp : Input) (g : Game) : Flow :=
  match beforeGameOverCheck inp g with
  | .done g1 => .done g1
  | .next g1 => gameOverCheck inp g1

/-! ## `Game.Update`, the gameplay step -/

/-- The block `// Player controls` with the two `clamp` calls after it. -/
def movePlayer (inp : Input) (g : Game) : Game :=
  let p0 := g.player
  let p1 := if inp.keyArrowLeft then { p0 with x := p0.x - p0.speed } else p0
  let p2 := if inp.keyArrowRight then { p1 with x := p1.x + p1.speed } else p1
  let p3 := if inp.keyArrowUp then { p2 with y := p2.y - p2.speed } else p2
  let p4 := if inp.keyArrowDown then { p3 with y := p3.y + p3.speed } else p3
  { g with player :=
      { p4 with x := clamp p4.x 0 (screenWidth - 32), y := clamp p4.y 0 (screenHeight - 32) } }

def shootCooldown : Int := 20

def shootSpeed : ℚ := 5

/-- The bullet `PlayerBullet{x: playerCenterX, y: g.player.y, speed: shootSpeed, active: true}`. -/
def newPlayerBullet (p : Player) : PlayerBullet :=
  { x := p.x + 17 - 2, y := p.y, speed := shootSpeed, active := true }

/-- The block `// Shooting behavior`. -/
def shoot (g : Game) : Game :=
  if Int.tmod g.frameCount shootCooldown = 0 then
    { g with playerBullets := g.playerBullets ++ [newPlayerBullet g.player] }
  else g

/-- Body of the loop `// Update player bullets`. -/
def movePlayerBullet (b : PlayerBullet) : PlayerBullet :=
  if b.active then { b with y := b.y - b.speed } else b

def updatePlayerBullets (g : Game) : Game :=
  { g with playerBullets := g.playerBullets.map movePlayerBullet }

/-- The inner loop `for j := range g.playerBullets` of the enemy loop: enemy `e`
against the bullets, with the running score. -/
def hitPlayerBullets (e : Enemy) : List PlayerBullet → Int → Enemy × List PlayerBullet × Int
  | [], score => (e, [], score)
  | b :: bs, score =>
    if b.active && collision e b then
      let r := hitPlayerBullets { e with active := false } bs (score + 1)
      (r.1, { b with active := false } :: r.2.1, r.2.2)
    else
      let r := hitPlayerBullets e bs score
      (r.1, b :: r.2.1, r.2.2)

/-- The enemy's move, `y += speedY`, and its deactivation below the bottom edge. -/
def moveEnemy (e : Enemy) : Enemy :=
  let e1 := { e with y := e.y + e.speedY }
  if e1.y > screenHeight - 32 then { e1 with active := false } else e1

/-- The block `// Check for collision with player` of the enemy loop. -/
def hitPlayer (e : Enemy) (g : Game) : Game :=
  if collision e
      ({ x := g.player.x, y := g.player.y, speedY := 0, active := false,
         hasShot := false } : Enemy) then
    { g with
      playerLives := g.playerLives - 1
      player := { g.player with x := screenWidth / 2, y := screenHeight - 50 } }
  else g

/-- Body of the loop `// Update enemies ...` for the enemy `e = g.enemies[i]`. -/
def updateEnemy (e : Enemy) (g : Game) : Enemy × Game :=
  if e.active then
    let r := hitPlayerBullets (moveEnemy e) g.playerBullets g.score
    (r.1, hitPlayer r.1 { g with playerBullets := r.2.1, score := r.2.2 })
  else (e, g)

def updateEnemiesLoop : List Enemy → Game → List Enemy × Game
  | [], g => ([], g)
  | e :: es, g =>
    let r := updateEnemy e g
    let rs := updateEnemiesLoop es r.2
    (r.1 :: rs.1, rs.2)

/-- The loop `// Update enemies and ensure they move on the y-axis from top to bottom`. -/
def updateEnemies (g : Game) : Game :=
  let r := updateEnemiesLoop g.enemies g
  { r.2 with enemies := r.1 }

/-- The block `// Spawn enemies`. -/
def spawnEnemy (r : Rng) (g : Game) : Game × Rng :=
  let d := r.nextIntn
  if d.1 = 2 then
    let f1 := d.2.nextFloat64
    let speedY := f1.1 + 3
    let f2 := f1.2.nextFloat64
    ({ g with enemies := g.enemies ++
        [{ x := f2.1 * screenWidth, y := 0, speedY := speedY, active := true,
           hasShot := false }] }, f2.2)
  else (g, d.2)

/-- Body of the loop `// Update enemies and ensure they stay within screen bounds`. -/
def clampEnemy (e : Enemy) : Enemy :=
  if e.active then
    { e with x := clamp e.x 0 (screenWidth - 32), y := clamp e.y 0 (screenHeight - 32) }
  else e

def clampEnemies (g : Game) : Game :=
  { g with enemies := g.enemies.map clampEnemy }

/-- The enemy bullet's move: `x += speedX`, `y += speedY`. -/
def moveEnemyBullet (b : EnemyBullet) : EnemyBullet :=
  { b with x := b.x + b.speedX, y := b.y + b.speedY }

/-- Body of the loop `// Update enemy bullets`, with the running `playerLives`. -/
def updateEnemyBullet (p : Player) (b : EnemyBullet) (lives : Int) : EnemyBullet × Int :=
  if b.active then
    let b1 := moveEnemyBullet b
    if collision p b1 then ({ b1 with active := false }, lives - 1) else (b1, lives)
  else (b, lives)

def updateEnemyBulletsLoop (p : Player) : List EnemyBullet → Int → List EnemyBullet × Int
  | [], lives => ([], lives)
  | b :: bs, lives =>
    let r := updateEnemyBullet p b lives
    let rs := updateEnemyBulletsLoop p bs r.2
    (r.1 :: rs.1, rs.2)

def updateEnemyBullets (g : Game) : Game :=
  let r := updateEnemyBulletsLoop g.player g.enemyBullets g.playerLives
  { g with enemyBullets := r.1, playerLives := r.2 }

/-- Body of the loop `// Enemy shooting logic`: the enemy after the iteration, the
bullets it appended, and the random source. -/
def enemyShoot (sqrt : ℚ → ℚ) (p : Player) (e : Enemy) (r : Rng) :
    Enemy × List EnemyBullet × Rng :=
  if e.active && !e.hasShot then
    let d := r.nextIntn
    if d.1 < 2 then
      let dx := p.x - e.x
      let dy := p.y - e.y
      let distance := sqrt (dx * dx + dy * dy)
      if distance ≠ 0 then
        let speedX := (dx / distance) * 1
        let speedY := (dy / distance) * 1
        let enemyCenterX := e.x + 17 - 2
        ({ e with hasShot := true },
         [{ x := enemyCenterX, y := e.y, speedX := speedX, speedY := speedY, active := true }],
         d.2)
      else (e, [], d.2)
    else (e, [], d.2)
  else (e, [], r)

def enemiesShootLoop (sqrt : ℚ → ℚ) (p : Player) :
    List Enemy → Rng → List Enemy × List EnemyBullet × Rng
  | [], r => ([], [], r)
  | e :: es, r =>
    let s := enemyShoot sqrt p e r
    let ss := enemiesShootLoop sqrt p es s.2.2
    (s.1 :: ss.1, s.2.1 ++ ss.2.1, ss.2.2)

def enemiesShoot (sqrt : ℚ → ℚ) (r : Rng) (g : Game) : Game × Rng :=
  let s := enemiesShootLoop sqrt g.player g.enemies r
  ({ g with enemies := s.1, enemyBullets := g.enemyBullets ++ s.2.1 }, s.2.2)

/-- Boss direction change, movement and clamping. -/
def bossMove (frameCount : Int) (r : Rng) (b : Boss) : Boss × Rng :=
  let s :=
    if Int.tmod frameCount 120 = 0 then
      let f1 := r.nextFloat64
      let f2 := f1.2.nextFloat64
      ({ b with speedX := f1.1 * 4 - 2, speedY := f2.1 * 4 - 2 }, f2.2)
    else (b, r)
  let b1 := { s.1 with x := s.1.x + s.1.speedX, y := s.1.y + s.1.speedY }
  ({ b1 with x := clamp b1.x 0 (screenWidth - 32), y := clamp b1.y 0 (screenHeight - 32) }, s.2)

/-- The block `// Boss shooting logic`: the boss and the bullets it appended. -/
def bossShoot (sqrt : ℚ → ℚ) (p : Player) (b : Boss) : Boss × List EnemyBullet :=
  let b1 := { b with shotCounter := b.shotCounter + 1 }
  if b1.shotCounter ≥ b1.shotCooldown then
    let dx := p.x - b1.x
    let dy := p.y - b1.y
    let distance := sqrt (dx * dx + dy * dy)
    if distance ≠ 0 then
      let speedX := (dx / distance) * 2
      let speedY := (dy / distance) * 2
      ({ b1 with shotCounter := 0 },
       [{ x := b1.x, y := b1.y, speedX := speedX, speedY := speedY, active := true }])
    else (b1, [])
  else (b1, [])

/-- The loop over the player bullets in the boss block: the boss, the bullets,
and whether the loop left through `return nil` (boss defeated). -/
def bossHitLoop (boss : Boss) : List PlayerBullet → Boss × List PlayerBullet × Bool
  | [] => (boss, [], false)
  | b :: bs =>
    if b.active && collision boss b then
      let boss1 := { boss with health := boss.health - 1 }
      let b1 := { b with active := false }
      if boss1.health ≤ 0 then ({ boss1 with active := false }, b1 :: bs, true)
      else
        let r := bossHitLoop boss1 bs
        (r.1, b1 :: r.2.1, r.2.2)
    else
      let r := bossHitLoop boss bs
      (r.1, b :: r.2.1, r.2.2)

/-- The block `// Handle boss logic (only if the boss is active)`. -/
def updateBoss (sqrt : ℚ → ℚ) (r : Rng) (g : Game) : Flow × Rng :=
  if g.isBossActive then
    let m := bossMove g.frameCount r g.boss
    let s := bossShoot sqrt g.player m.1
    let h := bossHitLoop s.1 g.playerBullets
    let g1 := { g with boss := h.1, enemyBullets := g.enemyBullets ++ s.2,
                       playerBullets := h.2.1 }
    if h.2.2 then (.done { g1 with isBossActive := false, gameCompleted := true }, m.2)
    else (.next g1, m.2)
  else (.next g, r)

def powerUpRespawnTime : Int := 30 * 60

/-- The first half of `// Update power-up`: the respawn counter. -/
def respawnPowerUp (r : Rng) (g : Game) : Game × Rng :=
  let g1 := { g with powerUpCounter := g.powerUpCounter + 1 }
  if g1.powerUpCounter ≥ powerUpRespawnTime then
    let f1 := r.nextFloat64
    let f2 := f1.2.nextFloat64
    ({ g1 with
       powerUp := { g1.powerUp with x := f1.1 * screenWidth, y := f2.1 * screenHeight,
                                    active := true }
       powerUpCounter := 0 }, f2.2)
  else (g1, r)

/-- The power-up's fall: `speedY = 1` and, when it is active, `y += speedY`. -/
def fallPowerUp (pu : PowerUp) : PowerUp :=
  let pu1 := { pu with speedY := 1 }
  if pu1.active then { pu1 with y := pu1.y + pu1.speedY } else pu1

/-- The block `// Update power-up position for movement`. -/
def movePowerUp (g : Game) : Game :=
  let g2 := { g with powerUp := fallPowerUp g.powerUp }
  if g2.powerUp.active then
    let g3 :=
      if g2.powerUp.active && collision g2.player g2.powerUp && decide (g2.playerLives < 3) then
        { g2 with playerLives := g2.playerLives + 1,
                  powerUp := { g2.powerUp with active := false } }
      else if g2.powerUp.active && collision g2.player g2.powerUp &&
          decide (g2.playerLives = 3) then
        { g2 with powerUp := { g2.powerUp with active := false } }
      else g2
    if g3.powerUp.y > screenHeight - 32 then
      { g3 with powerUp := { g3.powerUp with active := false } }
    else g3
  else g2

/-- `Update` from `// Player controls` to `g.frameCount++`: the state on which the
enemy loop runs. -/
def beforeEnemies (inp : Input) (g : Game) : Game :=
  let g3 := updatePlayerBullets (shoot (movePlayer inp g))
  { g3 with frameCount := g3.frameCount + 1 }

/-- `Update` from `// Player controls` up to the boss block. -/
def gameplayToBoss (sqrt : ℚ → ℚ) (inp : Input) (r : Rng) (g : Game) : Game × Rng :=
  let g5 := updateEnemies (beforeEnemies inp g)
  let s6 := spawnEnemy r g5
  let g7 := clampEnemies s6.1
  let g8 := updateEnemyBullets g7
  enemiesShoot sqrt s6.2 g8

/-- `Update` from `// Update power-up` to its last line. -/
def gameplayAfterBoss (r : Rng) (g : Game) : Game × Rng :=
  let s := respawnPowerUp r g
  let g1 := movePowerUp s.1
  ({ g1 with bgOffsetY := g1.bgOffsetY + 2 }, s.2)

/-- `Update` from `// Player controls` to its last line. -/
def gameplay (sqrt : ℚ → ℚ) (inp : Input) (r : Rng) (g : Game) : Game × Rng :=
  let s := gameplayToBoss sqrt inp r g
  match updateBoss sqrt s.2 s.1 with
  | (.done g1, r1) => (g1, r1)
  | (.next g1, r1) => gameplayAfterBoss r1 g1

/-- One call of `Game.Update`. -/
def Update (sqrt : ℚ → ℚ) (inp : Input) (r : Rng) (g : Game) : Game × Rng :=
  match beforeGameplay inp g with
  | .done g1 => (g1, r)
  | .next g1 => gameplay sqrt inp r g1

/-! ## Auxiliary definitions for the statements -/

/-- The state carried by a `Flow`, whichever way it leaves. -/
def Flow.game : Flow → Game
  | .done g => g
  | .next g => g

/-- The player's box lies on the screen. -/
def Player.InBounds (p : Player) : Prop :=
  0 ≤ p.x ∧ p.x ≤ screenWidth - 32 ∧ 0 ≤ p.y ∧ p.y ≤ screenHeight - 32

/-- The `Game` literal built in `main`. -/
def initialGame : Game :=
  { gameMode := .Competition
    player := { x := screenWidth / 2, y := screenHeight - 50, speed := 4, isShooting := false,
                shootCoolDown := 0 }
    enemies := []
    playerBullets := []
    score := 0
    playerLives := 0
    isGameOver := false
    frameCount := 0
    bgOffsetY := 0
    powerUp := { x := 0, y := 0, active := false, speedY := 0 }
    powerUpCounter := 0
    enemyBullets := []
    isPaused := false
    clickedButton := false
    startScreenActive := false
    storyChapter := .Chapter1
    storyLevel := .Level1
    showLevelScreen := false
    showLevelCompleted := false
    levelScreenCounter := 0
    levelCompletedScreenCounter := 0
    levelScreenShown := false
    gameCompleted := false
    boss := { x := 0, y := 0, speedX := 0, speedY := 0, active := false, health := 0,
              shotCooldown := 0, shotCounter := 0 }
    isBossActive := false
    currentChapter := .Chapter1
    showStartButton := false
    language := .unset
    languageScreenActive := true
    videoScreenCounter := 0
    showVideoScreen := false }

/-- No key held, no button pressed, the video not playing. -/
def idleInput : Input :=
  { keyE := false, keyU := false, key1 := false, key2 := false, keyEnter := false,
    keyEscape := false, keyArrowLeft := false, keyArrowRight := false, keyArrowUp := false,
    keyArrowDown := false, mouseButtonLeft := false, cursorX := 0, cursorY := 0,
    videoIsPlaying := false, videoIsPlayingAgain := false }

/-- A random source under which nothing spawns and no enemy shoots: every
`rand.Intn(100)` returns 50 and every `rand.Float64()` returns 0. -/
def quietRng : Rng := { intn := fun _ => 50, float64 := fun _ => 0 }

/-- A Competition game in play: `initialGame` after `E` on the language screen
and `1` on the start screen. -/
def competitionGame : Game :=
  startScreen { idleInput with key1 := true }
    (languageScreen { idleInput with keyE := true } initialGame)

/-- The fields that the stretch of `Update` before the gameplay step leaves as
they are when it falls through to the gameplay step. -/
def KeepsCore (g g1 : Game) : Prop :=
  g1.player = g.player ∧ g1.playerLives = g.playerLives ∧ g1.frameCount = g.frameCount ∧
  g1.powerUp = g.powerUp ∧ g1.powerUpCounter = g.powerUpCounter ∧
  g1.gameMode = g.gameMode ∧
  ((g1.enemies = g.enemies ∧ g1.score = g.score) ∨ g1.enemies = []) ∧
  (g1.playerBullets = g.playerBullets ∨ g1.playerBullets = [])

/-- Bullet `b'` is bullet `b` with at most its `active` flag cleared. -/
def Deactivated (b b' : PlayerBullet) : Prop :=
  b'.x = b.x ∧ b'.y = b.y ∧ b'.speed = b.speed ∧ (b'.active = true → b.active = true)

/-- A Competition game with one enemy just spawned at `(100, 0)` and one player
bullet above the top edge at `(100, -31)`: their boxes overlap (31 apart on the
y axis). -/
def grazingGame : Game :=
  { competitionGame with
    enemies := [{ x := 100, y := 0, speedY := 3, active := true, hasShot := false }]
    playerBullets := [{ x := 100, y := -31, speed := 5, active := true }] }

/-- A Competition game with one enemy at `(100, 100)` and two player bullets at
`(100, 105)` and `(108, 125)`, both overlapping the enemy. -/
def doubleHitGame : Game :=
  { competitionGame with
    enemies := [{ x := 100, y := 100, speedY := 3, active := true, hasShot := false }]
    playerBullets := [{ x := 100, y := 105, speed := 5, active := true },
                      { x := 108, y := 125, speed := 5, active := true }] }

/-- A Competition game with one enemy at `(100, 100)` and one player bullet at
`(100, 105)`, which still overlap once both have moved. -/
def singleHitGame : Game :=
  { competitionGame with
    enemies := [{ x := 100, y := 100, speedY := 3, active := true, hasShot := false }]
    playerBullets := [{ x := 100, y := 105, speed := 5, active := true }] }

/-- A player standing on the spawn position `(screenWidth/2, screenHeight-50)`. -/
def spawnPoint : Player :=
  { x := screenWidth / 2, y := screenHeight - 50, speed := 0, isShooting := false,
    shootCoolDown := 0 }

/-- The boss block of the tick whose gameplay step starts in `g`: its outcome
and the random source it hands on. -/
def bossStep (sqrt : ℚ → ℚ) (inp : Input) (r : Rng) (g : Game) : Flow × Rng :=
  updateBoss sqrt (gameplayToBoss sqrt inp r g).2 (gameplayToBoss sqrt inp r g).1

/-- The gameplay step runs on to the power-up block: the boss block does not
leave through the `return nil` of the boss's defeat. -/
def reachesPowerUp (sqrt : ℚ → ℚ) (inp : Input) (r : Rng) (g : Game) : Bool :=
  match (bossStep sqrt inp r g).1 with
  | .next _ => true
  | .done _ => false

/-- The power-up as the pickup test of this tick finds it: after the respawn
block and the fall. -/
def powerUpAtPickup (sqrt : ℚ → ℚ) (inp : Input) (r : Rng) (g : Game) : PowerUp :=
  fallPowerUp
    (respawnPowerUp (bossStep sqrt inp r g).2 (bossStep sqrt inp r g).1.game).1.powerUp

/-- A Competition game with one enemy on the player: both at `(320, 430)`. -/
def enemyOnPlayerGame : Game :=
  { competitionGame with
    enemies := [{ x := 320, y := 430, speedY := 3, active := true, hasShot := false }] }

/-- A Competition game with one enemy at `(290, 420)`, 30 to the left of the
player at `(320, 430)`: the boxes overlap. -/
def enemyBesidePlayerGame : Game :=
  { competitionGame with
    enemies := [{ x := 290, y := 420, speedY := 3, active := true, hasShot := false }] }

/-- A Competition game with the player at `(100, 100)`, one enemy on it, and one
enemy bullet at `(320, 429)` falling onto the spawn position. -/
def bulletAtSpawnGame : Game :=
  { competitionGame with
    player := { competitionGame.player with x := 100, y := 100 }
    enemies := [{ x := 100, y := 100, speedY := 3, active := true, hasShot := false }]
    enemyBullets := [{ x := 320, y := 429, speedX := 0, speedY := 1, active := true }] }

/-- A Competition game with one life left and two enemy bullets about to land on
the player at `(320, 430)`. -/
def twoBulletsGame : Game :=
  { competitionGame with
    playerLives := 1
    enemyBullets := [{ x := 320, y := 429, speedX := 0, speedY := 1, active := true },
                     { x := 330, y := 429, speedX := 0, speedY := 1, active := true }] }

/-- A Competition game in which the last life has just been lost. -/
def noLivesGame : Game := { competitionGame with playerLives := 0 }

/-- A left click on the pause button, at `(600, 20)`. -/
def pauseClick : Input :=
  { idleInput with mouseButtonLeft := true, cursorX := 600, cursorY := 20 }

/-- The game and the random source after `n` calls of `Update`, the `k`-th call
being fed the input `inp k`. -/
def run (sqrt : ℚ → ℚ) (inp : Nat → Input) : Nat → Game × Rng → Game × Rng
  | 0, s => s
  | n + 1, s => Update sqrt (inp n) (run sqrt inp n s).2 (run sqrt inp n s).1

/-- The power-up of `g'` has just respawned: the counter is back at 0, the
power-up sits where the next two draws of `r` put it, one step further down,
and it is active unless it touches the player or lies below `screenHeight - 32`
(in which case it is inactive). -/
def Respawned (r : Rng) (g' : Game) : Prop :=
  g'.powerUpCounter = 0 ∧
  g'.powerUp.x = r.float64 0 * screenWidth ∧
  g'.powerUp.y = r.float64 1 * screenHeight + 1 ∧
  (collision g'.player g'.powerUp = false → g'.powerUp.y ≤ screenHeight - 32 →
    g'.powerUp.active = true) ∧
  (screenHeight - 32 < g'.powerUp.y → g'.powerUp.active = false)

/-- From `g` to `g'` the respawn counter went up by one and the power-up did not
respawn: its `x` is the same and it has not turned from inactive to active. -/
def NotRespawned (g g' : Game) : Prop :=
  g'.powerUpCounter = g.powerUpCounter + 1 ∧
  g'.powerUp.x = g.powerUp.x ∧
  (g'.powerUp.active = true → g.powerUp.active = true)

/-- A Competition game on its 1800th gameplay tick since the respawn counter was
at 0: the counter stands at 1799, the power-up is inactive. -/
def respawnDueGame : Game := { competitionGame with powerUpCounter := 1799 }

/-- A random source like `quietRng` whose every `rand.Float64()` returns `19/20`. -/
def lowRng : Rng := { intn := fun _ => 50, float64 := fun _ => 19 / 20 }

/-- A Story game in the boss fight of Level 3: the boss at `(100, 100)` with one
health point left, and one player bullet at `(100, 110)`. -/
def bossFightGame : Game :=
  { competitionGame with
    gameMode := .Story
    storyLevel := .Level3
    levelScreenShown := true
    score := 2
    frameCount := 1
    isBossActive := true
    boss := { x := 100, y := 100, speedX := 2, speedY := 2, active := true, health := 1,
              shotCooldown := 60, shotCounter := 0 }
    playerBullets := [{ x := 100, y := 110, speed := 5, active := true }] }

/-- The boss as the bullet test of this tick finds it: after its move and its
shot. -/
def bossAtTest (sqrt : ℚ → ℚ) (inp : Input) (r : Rng) (g : Game) : Boss :=
  (bossShoot sqrt (gameplayToBoss sqrt inp r g).1.player
    (bossMove (gameplayToBoss sqrt inp r g).1.frameCount (gameplayToBoss sqrt inp r g).2
      (gameplayToBoss sqrt inp r g).1.boss).1).1

/-- The boss fight with the bullet at `(100, 69)`, overlapping the boss at
`(100, 100)` by one pixel row. -/
def bossGrazedGame : Game :=
  { bossFightGame with playerBullets := [{ x := 100, y := 69, speed := 5, active := true }] }

/-- The boss fight with an enemy at `(100, 105)` between the bullet and the boss. -/
def bossShieldedGame : Game :=
  { bossFightGame with
    enemies := [{ x := 100, y := 105, speedY := 3, active := true, hasShot := false }] }

/-- The two fields of the "level completed" screen. -/
def levelCompletedScreen (g : Game) : Bool × Int :=
  (g.showLevelCompleted, g.levelCompletedScreenCounter)

/-- A Story game in Level 1, past the level screen, with the score at 1. -/
def levelOneWonGame : Game :=
  { competitionGame with
    gameMode := .Story
    levelScreenShown := true
    score := 1 }

/-- No key held, the video playing. -/
def videoInput : Input := { idleInput with videoIsPlaying := true, videoIsPlayingAgain := true }

/-- A Story game at the start of Level 1: `initialGame` after `E` on the language
screen and `2` on the start screen. -/
def storyGame : Game :=
  startScreen { idleInput with key2 := true }
    (languageScreen { idleInput with keyE := true } initialGame)

/-- The Story game right after the boss's defeat: `bossFightGame` after the
`Update` in which the last bullet hits. -/
def completedGame : Game := (Update (fun q => q) idleInput quietRng bossFightGame).1

/-- The left arrow held, nothing else. -/
def leftInput : Input := { idleInput with keyArrowLeft := true }

/-- The three fields of the "Level N" screen. -/
def levelScreen (g : Game) : Bool × Int × Bool :=
  (g.showLevelScreen, g.levelScreenCounter, g.levelScreenShown)

/-- The game as the power-up's fall of this tick finds it: after the boss block
and the respawn block. -/
def atPowerUp (sqrt : ℚ → ℚ) (inp : Input) (r : Rng) (g : Game) : Game :=
  (respawnPowerUp (bossStep sqrt inp r g).2 (bossStep sqrt inp r g).1.game).1

/-- A Competition game with two lives and an active power-up at `(320, 429)`,
one step above the player at `(320, 430)`. -/
def pickupGame : Game :=
  { competitionGame with
    playerLives := 2
    powerUp := { x := 320, y := 429, active := true, speedY := 1 } }

/-- The boss fight of `bossFightGame` with two lives and an active power-up at
`(320, 429)`, one step above the player at `(320, 430)`. -/
def bossFightPickupGame : Game :=
  { bossFightGame with
    playerLives := 2
    powerUp := { x := 320, y := 429, active := true, speedY := 1 } }

/-- The state and the random source on which the enemy shooting loop of this
tick runs: `Update` from `// Player controls` to the end of
`// Update enemy bullets`. -/
def beforeShooting (inp : Input) (r : Rng) (g : Game) : Game × Rng :=
  let s6 := spawnEnemy r (updateEnemies (beforeEnemies inp g))
  (updateEnemyBullets (clampEnemies s6.1), s6.2)

/-- The random source when the shooting loop reaches the enemy of index `i`. -/
def rngAtEnemy (sqrt : ℚ → ℚ) (p : Player) (es : List Enemy) (r : Rng) (i : Nat) : Rng :=
  (enemiesShootLoop sqrt p (es.take i) r).2.2

/-- The bullets appended by the iteration of the shooting loop for the enemy of
index `i`. -/
def shotsAt (sqrt : ℚ → ℚ) (p : Player) (es : List Enemy) (r : Rng) (i : Nat) :
    List EnemyBullet :=
  match es[i]? with
  | some e => (enemyShoot sqrt p e (rngAtEnemy sqrt p es r i)).2.1
  | none => []

/-- The enemy bullets that the enemy of index `i` fires in the call
`Update sqrt inp r g`. -/
def firedBy (sqrt : ℚ → ℚ) (inp : Input) (r : Rng) (g : Game) (i : Nat) : List EnemyBullet :=
  match beforeGameplay inp g with
  | .done _ => []
  | .next g1 =>
    shotsAt sqrt (beforeShooting inp r g1).1.player (beforeShooting inp r g1).1.enemies
      (beforeShooting inp r g1).2 i

/-- The call of `Update` on `g` keeps the enemies it finds: no restart and no
level change empties the list before the gameplay step. -/
def keepsEnemies (inp : Input) (g : Game) : Prop :=
  (beforeGameplay inp g).game.enemies = g.enemies

/-- The number of bullets fired by the enemy of index `i` in the first `n` calls
of a run. -/
def shotsInRun (sqrt : ℚ → ℚ) (inp : Nat → Input) (s : Game × Rng) (i : Nat) : Nat → Nat
  | 0 => 0
  | n + 1 =>
    shotsInRun sqrt inp s i n +
      (firedBy sqrt (inp n) (run sqrt inp n s).2 (run sqrt inp n s).1 i).length

/-- A random source under which nothing spawns and every enemy that may shoot
does: every `rand.Intn(100)` returns 0. -/
def eagerRng : Rng := { intn := fun _ => 0, float64 := fun _ => 0 }

/-! # Properties -/

/-! ## Collision -/

theorem collision_iff {α β : Type} [Positioned α] [Positioned β] (a : α) (b : β) :
    collision a b = true ↔
      |Positioned.getX a - Positioned.getX b| < 32 ∧
      |Positioned.getY a - Positioned.getY b| < 32 := by
  simp only [collision, Bool.and_eq_true, decide_eq_true_eq, abs_lt]
  constructor
  · rintro ⟨⟨⟨h1, h2⟩, h3⟩, h4⟩
    refine ⟨⟨?_, ?_⟩, ⟨?_, ?_⟩⟩ <;> linarith
  · rintro ⟨⟨h1, h2⟩, ⟨h3, h4⟩⟩
    refine ⟨⟨⟨?_, ?_⟩, ?_⟩, ?_⟩ <;> linarith

/-- C1: `collision` is symmetric, holds for two entities at the same position,
fails for entities 32 or more apart on the x axis or on the y axis, and holds
exactly when both coordinate differences are below 32 in absolute value. -/
theorem collision_symmetric_fixed_box {α β : Type} [Positioned α] [Positioned β]
    (a : α) (b : β) :
    collision a b = collision b a ∧
    ((Positioned.getX a = Positioned.getX b ∧ Positioned.getY a = Positioned.getY b) →
      collision a b = true) ∧
    ((32 ≤ |Positioned.getX a - Positioned.getX b| ∨
        32 ≤ |Positioned.getY a - Positioned.getY b|) → collision a b = false) ∧
    (collision a b = true ↔
      |Positioned.getX a - Positioned.getX b| < 32 ∧
      |Positioned.getY a - Positioned.getY b| < 32) := by
  refine ⟨?_, ?_, ?_, collision_iff a b⟩
  · rw [Bool.eq_iff_iff, collision_iff, collision_iff, abs_sub_comm (Positioned.getX a),
      abs_sub_comm (Positioned.getY a)]
  · rintro ⟨hx, hy⟩
    rw [collision_iff, hx, hy]
    simp
  · intro h
    rw [← Bool.not_eq_true, collision_iff]
    rintro ⟨hx, hy⟩
    rcases h with h | h <;> linarith

/-! ## The player stays on the screen -/

theorem clamp_ge (v lo hi : ℚ) (h : lo ≤ hi) : lo ≤ clamp v lo hi := by
  unfold clamp
  split_ifs <;> linarith

theorem clamp_le (v lo hi : ℚ) (h : lo ≤ hi) : clamp v lo hi ≤ hi := by
  unfold clamp
  split_ifs <;> linarith

theorem movePlayer_inBounds (inp : Input) (g : Game) : (movePlayer inp g).player.InBounds := by
  have hw : (0 : ℚ) ≤ screenWidth - 32 := by norm_num [screenWidth]
  have hh : (0 : ℚ) ≤ screenHeight - 32 := by norm_num [screenHeight]
  exact ⟨clamp_ge _ _ _ hw, clamp_le _ _ _ hw, clamp_ge _ _ _ hh, clamp_le _ _ _ hh⟩

theorem spawn_inBounds (p : Player) :
    ({ p with x := screenWidth / 2, y := screenHeight - 50 } : Player).InBounds := by
  norm_num [Player.InBounds, screenWidth, screenHeight]

@[simp] theorem shoot_player (g : Game) : (shoot g).player = g.player := by
  unfold shoot; split <;> rfl

@[simp] theorem updatePlayerBullets_player (g : Game) :
    (updatePlayerBullets g).player = g.player := rfl

theorem hitPlayer_player (e : Enemy) (g : Game) :
    (hitPlayer e g).player = g.player ∨
    (hitPlayer e g).player = { g.player with x := screenWidth / 2, y := screenHeight - 50 } := by
  unfold hitPlayer
  split_ifs <;> simp

theorem updateEnemy_player (e : Enemy) (g : Game) :
    (updateEnemy e g).2.player = g.player ∨
    (updateEnemy e g).2.player =
      { g.player with x := screenWidth / 2, y := screenHeight - 50 } := by
  unfold updateEnemy
  split_ifs
  · exact hitPlayer_player _ _
  · exact Or.inl rfl

theorem updateEnemy_inBounds (e : Enemy) (g : Game) (h : g.player.InBounds) :
    (updateEnemy e g).2.player.InBounds := by
  rcases updateEnemy_player e g with h1 | h1 <;> rw [h1]
  · exact h
  · exact spawn_inBounds _

theorem updateEnemiesLoop_inBounds (es : List Enemy) (g : Game) (h : g.player.InBounds) :
    (updateEnemiesLoop es g).2.player.InBounds := by
  induction es generalizing g with
  | nil => exact h
  | cons e es ih => exact ih _ (updateEnemy_inBounds e g h)

@[simp] theorem updateEnemies_player (g : Game) :
    (updateEnemies g).player = (updateEnemiesLoop g.enemies g).2.player := rfl

@[simp] theorem spawnEnemy_player (r : Rng) (g : Game) : (spawnEnemy r g).1.player = g.player := by
  unfold spawnEnemy; simp only []; split <;> rfl

@[simp] theorem clampEnemies_player (g : Game) : (clampEnemies g).player = g.player := rfl

@[simp] theorem updateEnemyBullets_player (g : Game) :
    (updateEnemyBullets g).player = g.player := rfl

@[simp] theorem enemiesShoot_player (sqrt : ℚ → ℚ) (r : Rng) (g : Game) :
    (enemiesShoot sqrt r g).1.player = g.player := rfl

@[simp] theorem updateBoss_player (sqrt : ℚ → ℚ) (r : Rng) (g : Game) :
    (updateBoss sqrt r g).1.game.player = g.player := by
  unfold updateBoss; simp only []; split_ifs <;> rfl

@[simp] theorem respawnPowerUp_player (r : Rng) (g : Game) :
    (respawnPowerUp r g).1.player = g.player := by
  unfold respawnPowerUp; simp only []; split <;> rfl

@[simp] theorem movePowerUp_player (g : Game) : (movePowerUp g).player = g.player := by
  unfold movePowerUp; simp only []; split_ifs <;> rfl

@[simp] theorem gameplayAfterBoss_player (r : Rng) (g : Game) :
    (gameplayAfterBoss r g).1.player = g.player := by
  simp [gameplayAfterBoss]

theorem gameplay_player (sqrt : ℚ → ℚ) (inp : Input) (r : Rng) (g : Game) :
    (gameplay sqrt inp r g).1.player = (gameplayToBoss sqrt inp r g).1.player := by
  unfold gameplay
  simp only []
  have h := updateBoss_player sqrt (gameplayToBoss sqrt inp r g).2 (gameplayToBoss sqrt inp r g).1
  split <;> rename_i heq <;> rw [heq] at h <;> simpa [Flow.game] using h

theorem gameplay_inBounds (sqrt : ℚ → ℚ) (inp : Input) (r : Rng) (g : Game) :
    (gameplay sqrt inp r g).1.player.InBounds := by
  rw [gameplay_player]
  simp only [gameplayToBoss, enemiesShoot_player, updateEnemyBullets_player, clampEnemies_player,
    spawnEnemy_player, updateEnemies_player]
  apply updateEnemiesLoop_inBounds
  simpa [beforeEnemies] using movePlayer_inBounds inp g

/-- C2: whenever `Update` reaches the gameplay step, the player position after
`Update` satisfies `0 ≤ x ≤ 608 = screenWidth - 32` and `0 ≤ y ≤ 448 = screenHeight - 32`,
whatever the starting position, the speed, the keys held and the random draws;
this covers the reset to the spawn position by an enemy collision. -/
theorem player_on_screen_after_update (sqrt : ℚ → ℚ) (inp : Input) (r : Rng) (g g1 : Game)
    (h : beforeGameplay inp g = .next g1) :
    0 ≤ (Update sqrt inp r g).1.player.x ∧ (Update sqrt inp r g).1.player.x ≤ 608 ∧
    0 ≤ (Update sqrt inp r g).1.player.y ∧ (Update sqrt inp r g).1.player.y ≤ 448 := by
  have hb := gameplay_inBounds sqrt inp r g1
  simp only [Update, h]
  simp only [Player.InBounds, screenWidth, screenHeight] at hb
  norm_num at hb
  exact hb

theorem player_on_screen_after_update_witness :
    beforeGameplay idleInput competitionGame = .next competitionGame ∧
    0 ≤ (Update (fun q => q) idleInput quietRng competitionGame).1.player.x ∧
    (Update (fun q => q) idleInput quietRng competitionGame).1.player.x ≤ 608 ∧
    0 ≤ (Update (fun q => q) idleInput quietRng competitionGame).1.player.y ∧
    (Update (fun q => q) idleInput quietRng competitionGame).1.player.y ≤ 448 :=
  ⟨rfl, player_on_screen_after_update (fun q => q) idleInput quietRng competitionGame
    competitionGame rfl⟩

/-! ## What the stretch before the gameplay step leaves alone -/

theorem keepsCore_refl (g : Game) : KeepsCore g g := by simp [KeepsCore]

theorem keepsCore_trans {g g1 g2 : Game} (h1 : KeepsCore g g1) (h2 : KeepsCore g1 g2) :
    KeepsCore g g2 := by
  obtain ⟨a1, a2, a3, a4, a5, a6, a7, a8⟩ := h1
  obtain ⟨b1, b2, b3, b4, b5, b6, b7, b8⟩ := h2
  refine ⟨b1.trans a1, b2.trans a2, b3.trans a3, b4.trans a4, b5.trans a5, b6.trans a6, ?_, ?_⟩
  · rcases b7 with ⟨e2, s2⟩ | e2
    · rcases a7 with ⟨e1, s1⟩ | e1
      · exact Or.inl ⟨e2.trans e1, s2.trans s1⟩
      · exact Or.inr (e2.trans e1)
    · exact Or.inr e2
  · rcases b8 with e2 | e2
    · rcases a8 with e1 | e1
      · exact Or.inl (e2.trans e1)
      · exact Or.inr (e2.trans e1)
    · exact Or.inr e2

theorem keepsCore_score_eq {g g1 : Game} (h : KeepsCore g g1) (hne : g1.enemies ≠ []) :
    g1.score = g.score := by
  rcases h.2.2.2.2.2.2.1 with ⟨_, hs⟩ | he
  · exact hs
  · exact absurd he hne

theorem gameOverCheck_next (inp : Input) (g g1 : Game) (h : gameOverCheck inp g = .next g1) :
    g1 = g ∧ 0 < g.playerLives ∧ g.isGameOver = false := by
  unfold gameOverCheck at h
  by_cases hl : g.playerLives ≤ 0
  · simp [hl] at h
    split_ifs at h
  · simp only [hl, if_false] at h
    split_ifs at h with h1
    · simp only [Flow.next.injEq] at h
      exact ⟨h.symm, by omega, by simpa using h1⟩

theorem storyVideo_next (inp : Input) (g g1 : Game) (h : storyVideo inp g = .next g1) :
    KeepsCore g g1 := by
  unfold storyVideo at h
  simp only [] at h
  split_ifs at h <;> cases h <;> simp [KeepsCore]

theorem storyLevel1_next (g g1 : Game) (h : storyLevel1 g = .next g1) : KeepsCore g g1 := by
  unfold storyLevel1 at h
  simp only [] at h
  split_ifs at h <;> cases h <;> simp_all [KeepsCore, initializeLevel]

theorem storyLevel2_next (g g1 : Game) (h : storyLevel2 g = .next g1) : KeepsCore g g1 := by
  unfold storyLevel2 at h
  simp only [] at h
  split_ifs at h <;> cases h <;> simp_all [KeepsCore, initializeLevel]

theorem storyLevel3_next (g g1 : Game) (h : storyLevel3 g = .next g1) : KeepsCore g g1 := by
  unfold storyLevel3 at h
  simp only [] at h
  split_ifs at h <;> cases h <;> simp_all [KeepsCore]

theorem storySequencer_next (inp : Input) (g g1 : Game) (h : storySequencer inp g = .next g1) :
    KeepsCore g g1 := by
  unfold storySequencer at h
  split_ifs at h with hm
  · revert h
    cases hv : storyVideo inp g with
    | done g' => simp
    | next g' =>
      have hk := storyVideo_next inp g g' hv
      simp only []
      cases hc : g'.storyChapter
      cases hl : g'.storyLevel <;> simp only [] <;> intro h
      · exact keepsCore_trans hk (storyLevel1_next _ _ h)
      · exact keepsCore_trans hk (storyLevel2_next _ _ h)
      · exact keepsCore_trans hk (storyLevel3_next _ _ h)
  · simp only [Flow.next.injEq] at h
    subst h
    exact keepsCore_refl _

theorem pauseButton_keeps (inp : Input) (g : Game) : KeepsCore g (pauseButton inp g) := by
  unfold pauseButton
  simp only []
  split_ifs <;> simp [KeepsCore]

theorem menuButton_keeps (inp : Input) (g : Game) : KeepsCore g (menuButton inp g) := by
  unfold menuButton
  simp only []
  split_ifs <;> simp [KeepsCore]

theorem beforeGameOverCheck_next (inp : Input) (g g1 : Game)
    (h : beforeGameOverCheck inp g = .next g1) :
    KeepsCore g g1 ∧ g1.isPaused = false := by
  unfold beforeGameOverCheck at h
  split_ifs at h
  revert h
  cases hs : storySequencer inp g with
  | done g' => simp
  | next g' =>
    simp only []
    intro h
    split_ifs at h with hp
    cases h
    exact ⟨keepsCore_trans (storySequencer_next inp g g' hs)
      (keepsCore_trans (pauseButton_keeps inp g') (menuButton_keeps inp _)), by simpa using hp⟩

/-- When `Update` reaches the gameplay step in state `g1`, the core fields of
`g1` are those of the state `g` it was called on, the player has lives left,
and the game is neither over nor paused. -/
theorem beforeGameplay_next (inp : Input) (g g1 : Game) (h : beforeGameplay inp g = .next g1) :
    KeepsCore g g1 ∧ 0 < g1.playerLives ∧ g1.isGameOver = false ∧ g1.isPaused = false := by
  unfold beforeGameplay at h
  revert h
  cases hs : beforeGameOverCheck inp g with
  | done g' => simp
  | next g' =>
    simp only []
    intro h
    obtain ⟨hk, hp⟩ := beforeGameOverCheck_next inp g g' hs
    obtain ⟨rfl, hl, ho⟩ := gameOverCheck_next inp g' g1 h
    exact ⟨hk, hl, ho, hp⟩

/-! ## The enemy loop -/

@[simp] theorem collision_deactivated_enemy (e : Enemy) (b : PlayerBullet) :
    collision ({ e with active := false } : Enemy) b = collision e b := rfl

theorem hitPlayerBullets_none (e : Enemy) (bs : List PlayerBullet) (s : Int)
    (h : ∀ b ∈ bs, b.active = true → collision e b = false) :
    hitPlayerBullets e bs s = (e, bs, s) := by
  induction bs with
  | nil => rfl
  | cons b bs ih =>
    have hb : (b.active && collision e b) = false := by
      cases hba : b.active
      · rfl
      · simpa using h b (List.mem_cons_self _ _) hba
    have ih' := ih (fun b' hb' => h b' (List.mem_cons_of_mem _ hb'))
    simp [hitPlayerBullets, hb, ih']

theorem hitPlayerBullets_one (e : Enemy) (bs : List PlayerBullet) (s : Int) (j : Nat)
    (b : PlayerBullet) (hj : bs[j]? = some b) (hb : b.active = true)
    (hc : collision e b = true)
    (hu : ∀ j' b', bs[j']? = some b' → b'.active = true → collision e b' = true → j' = j) :
    hitPlayerBullets e bs s
      = ({ e with active := false }, bs.set j { b with active := false }, s + 1) := by
  induction bs generalizing j with
  | nil => simp at hj
  | cons b0 bs ih =>
    cases j with
    | zero =>
      simp only [List.getElem?_cons_zero, Option.some.injEq] at hj
      subst hj
      have hrest : ∀ b' ∈ bs, b'.active = true →
          collision ({ e with active := false } : Enemy) b' = false := by
        intro b' hb' hact
        obtain ⟨n, hn⟩ := List.mem_iff_getElem?.mp hb'
        by_contra hcol
        have := hu (n + 1) b' (by simpa using hn) hact (by simpa using hcol)
        omega
      simp [hitPlayerBullets, hb, hc, hitPlayerBullets_none _ _ _ hrest]
    | succ j =>
      have h0 : (b0.active && collision e b0) = false := by
        by_contra hcon
        simp only [Bool.not_eq_false, Bool.and_eq_true] at hcon
        have := hu 0 b0 (by simp) hcon.1 hcon.2
        omega
      have ih' := ih j (by simpa using hj) (fun j' b' hj' ha hc' => by
        have := hu (j' + 1) b' (by simpa using hj') ha hc'
        omega)
      simp [hitPlayerBullets, h0, ih']

@[simp] theorem hitPlayer_playerBullets (e : Enemy) (g : Game) :
    (hitPlayer e g).playerBullets = g.playerBullets := by
  unfold hitPlayer; split <;> rfl

@[simp] theorem hitPlayer_score (e : Enemy) (g : Game) : (hitPlayer e g).score = g.score := by
  unfold hitPlayer; split <;> rfl

theorem updateEnemy_none (e : Enemy) (g : Game)
    (h : ∀ b ∈ g.playerBullets, e.active = true → b.active = true →
      collision (moveEnemy e) b = false) :
    (updateEnemy e g).2.playerBullets = g.playerBullets ∧
    (updateEnemy e g).2.score = g.score := by
  unfold updateEnemy
  split_ifs with ha
  · have := hitPlayerBullets_none (moveEnemy e) g.playerBullets g.score
      (fun b hb hact => h b hb ha hact)
    simp [this]
  · exact ⟨rfl, rfl⟩

theorem updateEnemy_one (e : Enemy) (g : Game) (j : Nat) (b : PlayerBullet)
    (ha : e.active = true) (hj : g.playerBullets[j]? = some b) (hb : b.active = true)
    (hc : collision (moveEnemy e) b = true)
    (hu : ∀ j' b', g.playerBullets[j']? = some b' → b'.active = true →
      collision (moveEnemy e) b' = true → j' = j) :
    (updateEnemy e g).1.active = false ∧
    (updateEnemy e g).2.playerBullets = g.playerBullets.set j { b with active := false } ∧
    (updateEnemy e g).2.score = g.score + 1 := by
  have := hitPlayerBullets_one (moveEnemy e) g.playerBullets g.score j b hj hb hc hu
  simp [updateEnemy, ha, this]

theorem updateEnemiesLoop_none (es : List Enemy) (g : Game)
    (h : ∀ e ∈ es, ∀ b ∈ g.playerBullets, e.active = true → b.active = true →
      collision (moveEnemy e) b = false) :
    (updateEnemiesLoop es g).2.playerBullets = g.playerBullets ∧
    (updateEnemiesLoop es g).2.score = g.score := by
  induction es generalizing g with
  | nil => exact ⟨rfl, rfl⟩
  | cons e es ih =>
    obtain ⟨h1, h2⟩ := updateEnemy_none e g (h e (List.mem_cons_self _ _))
    have ih' := ih (updateEnemy e g).2 (by
      rw [h1]
      exact fun e' he' => h e' (List.mem_cons_of_mem _ he'))
    simp only [updateEnemiesLoop]
    rw [ih'.1, ih'.2, h1, h2]
    exact ⟨rfl, rfl⟩

theorem updateEnemiesLoop_length (es : List Enemy) (g : Game) :
    (updateEnemiesLoop es g).1.length = es.length := by
  induction es generalizing g with
  | nil => rfl
  | cons e es ih => simp [updateEnemiesLoop, ih]

/-- Exactly one pair (enemy `i`, bullet `j`) passes the hit test: the loop
deactivates both and adds one to the score. -/
theorem updateEnemiesLoop_one (es : List Enemy) (g : Game) (i j : Nat) (e : Enemy)
    (b : PlayerBullet) (hi : es[i]? = some e) (ha : e.active = true)
    (hj : g.playerBullets[j]? = some b) (hb : b.active = true)
    (hc : collision (moveEnemy e) b = true)
    (hu : ∀ i' j' e' b', es[i']? = some e' → e'.active = true →
      g.playerBullets[j']? = some b' → b'.active = true →
      collision (moveEnemy e') b' = true → i' = i ∧ j' = j) :
    ((updateEnemiesLoop es g).1[i]?).map Enemy.active = some false ∧
    (updateEnemiesLoop es g).2.playerBullets = g.playerBullets.set j { b with active := false } ∧
    (updateEnemiesLoop es g).2.score = g.score + 1 := by
  induction es generalizing g i with
  | nil => simp at hi
  | cons e0 es ih =>
    cases i with
    | zero =>
      simp only [List.getElem?_cons_zero, Option.some.injEq] at hi
      subst hi
      obtain ⟨h1, h2, h3⟩ := updateEnemy_one e0 g j b ha hj hb hc (fun j' b' hj' hact hcol =>
        (hu 0 j' e0 b' (by simp) ha hj' hact hcol).2)
      have hrest := updateEnemiesLoop_none es (updateEnemy e0 g).2 (by
        intro e' he' b' hb' hact' hbact'
        rw [h2] at hb'
        obtain ⟨n, hn⟩ := List.mem_iff_getElem?.mp he'
        obtain ⟨m, hm⟩ := List.mem_iff_getElem?.mp hb'
        by_contra hcol
        have hmj : m ≠ j := by
          rintro rfl
          rw [List.getElem?_set_self'] at hm
          cases hbj : g.playerBullets[m]? with
          | none => simp [hbj] at hm
          | some x =>
            simp [hbj] at hm
            rw [← hm] at hbact'
            simp at hbact'
        rw [List.getElem?_set_ne (Ne.symm hmj)] at hm
        have := hu (n + 1) m e' b' (by simpa using hn) hact' hm hbact' (by simpa using hcol)
        omega)
      simp only [updateEnemiesLoop, List.getElem?_cons_zero, Option.map_some']
      rw [hrest.1, hrest.2, h1, h2, h3]
      exact ⟨rfl, rfl, rfl⟩
    | succ i =>
      obtain ⟨h1, h2⟩ := updateEnemy_none e0 g (by
        intro b' hb' hact hbact
        obtain ⟨m, hm⟩ := List.mem_iff_getElem?.mp hb'
        by_contra hcol
        have := hu 0 m e0 b' (by simp) hact hm hbact (by simpa using hcol)
        omega)
      have ih' := ih (updateEnemy e0 g).2 i (by simpa using hi) (by rw [h1]; exact hj) (by
        intro i' j' e' b' hi' hact hj' hbact hcol
        rw [h1] at hj'
        have := hu (i' + 1) j' e' b' (by simpa using hi') hact hj' hbact hcol
        omega)
      simp only [updateEnemiesLoop, List.getElem?_cons_succ]
      rw [ih'.1, ih'.2.1, ih'.2.2, h1, h2]
      exact ⟨rfl, rfl, rfl⟩

/-! ## Player bullets only ever lose their `active` flag after the bullet movement -/

theorem deactivated_self (b : PlayerBullet) : Deactivated b b := ⟨rfl, rfl, rfl, id⟩

theorem deactivated_off (b : PlayerBullet) : Deactivated b { b with active := false } :=
  ⟨rfl, rfl, rfl, by simp⟩

theorem deactivated_refl (bs : List PlayerBullet) : List.Forall₂ Deactivated bs bs :=
  List.forall₂_same.mpr (fun b _ => deactivated_self b)

theorem deactivated_trans {as bs cs : List PlayerBullet} (h1 : List.Forall₂ Deactivated as bs)
    (h2 : List.Forall₂ Deactivated bs cs) : List.Forall₂ Deactivated as cs := by
  induction h1 generalizing cs with
  | nil => cases h2; exact List.Forall₂.nil
  | cons hab _ ih =>
    cases h2 with
    | cons hbc hrest =>
      exact List.Forall₂.cons
        ⟨hbc.1.trans hab.1, hbc.2.1.trans hab.2.1, hbc.2.2.1.trans hab.2.2.1,
          fun h => hab.2.2.2 (hbc.2.2.2 h)⟩ (ih hrest)

theorem deactivated_inactive_at {bs bs' : List PlayerBullet}
    (h : List.Forall₂ Deactivated bs bs') (j : Nat)
    (hj : (bs[j]?).map PlayerBullet.active = some false) :
    (bs'[j]?).map PlayerBullet.active = some false := by
  induction h generalizing j with
  | nil => simp at hj
  | cons hab _ ih =>
    cases j with
    | zero =>
      simp only [List.getElem?_cons_zero, Option.map_some', Option.some.injEq] at hj ⊢
      cases hact : PlayerBullet.active _ with
      | false => rfl
      | true => rw [hab.2.2.2 hact] at hj; cases hj
    | succ j => simpa using ih j (by simpa using hj)

theorem hitPlayerBullets_deactivated (e : Enemy) (bs : List PlayerBullet) (s : Int) :
    List.Forall₂ Deactivated bs (hitPlayerBullets e bs s).2.1 := by
  induction bs generalizing e s with
  | nil => exact List.Forall₂.nil
  | cons b bs ih =>
    unfold hitPlayerBullets
    split_ifs
    · exact List.Forall₂.cons (deactivated_off b) (ih _ _)
    · exact List.Forall₂.cons (deactivated_self b) (ih _ _)

theorem updateEnemy_deactivated (e : Enemy) (g : Game) :
    List.Forall₂ Deactivated g.playerBullets (updateEnemy e g).2.playerBullets := by
  unfold updateEnemy
  split_ifs
  · simpa using hitPlayerBullets_deactivated (moveEnemy e) g.playerBullets g.score
  · exact deactivated_refl _

theorem updateEnemiesLoop_deactivated (es : List Enemy) (g : Game) :
    List.Forall₂ Deactivated g.playerBullets (updateEnemiesLoop es g).2.playerBullets := by
  induction es generalizing g with
  | nil => exact deactivated_refl _
  | cons e es ih => exact deactivated_trans (updateEnemy_deactivated e g) (ih _)

theorem bossHitLoop_deactivated (boss : Boss) (bs : List PlayerBullet) :
    List.Forall₂ Deactivated bs (bossHitLoop boss bs).2.1 := by
  induction bs generalizing boss with
  | nil => exact List.Forall₂.nil
  | cons b bs ih =>
    unfold bossHitLoop
    simp only []
    split_ifs
    · exact List.Forall₂.cons (deactivated_off b) (deactivated_refl _)
    · exact List.Forall₂.cons (deactivated_off b) (ih _)
    · exact List.Forall₂.cons (deactivated_self b) (ih _)

theorem updateBoss_deactivated (sqrt : ℚ → ℚ) (r : Rng) (g : Game) :
    List.Forall₂ Deactivated g.playerBullets (updateBoss sqrt r g).1.game.playerBullets := by
  unfold updateBoss
  simp only []
  split_ifs
  · exact bossHitLoop_deactivated _ _
  · exact bossHitLoop_deactivated _ _
  · exact deactivated_refl _

/-! ## Fields through the gameplay step -/

@[simp] theorem respawnPowerUp_playerBullets (r : Rng) (g : Game) :
    (respawnPowerUp r g).1.playerBullets = g.playerBullets := by
  unfold respawnPowerUp; simp only []; split <;> rfl

@[simp] theorem movePowerUp_playerBullets (g : Game) :
    (movePowerUp g).playerBullets = g.playerBullets := by
  unfold movePowerUp; simp only []; split_ifs <;> rfl

@[simp] theorem respawnPowerUp_score (r : Rng) (g : Game) :
    (respawnPowerUp r g).1.score = g.score := by
  unfold respawnPowerUp; simp only []; split <;> rfl

@[simp] theorem movePowerUp_score (g : Game) : (movePowerUp g).score = g.score := by
  unfold movePowerUp; simp only []; split_ifs <;> rfl

@[simp] theorem respawnPowerUp_enemies (r : Rng) (g : Game) :
    (respawnPowerUp r g).1.enemies = g.enemies := by
  unfold respawnPowerUp; simp only []; split <;> rfl

@[simp] theorem movePowerUp_enemies (g : Game) : (movePowerUp g).enemies = g.enemies := by
  unfold movePowerUp; simp only []; split_ifs <;> rfl

@[simp] theorem respawnPowerUp_frameCount (r : Rng) (g : Game) :
    (respawnPowerUp r g).1.frameCount = g.frameCount := by
  unfold respawnPowerUp; simp only []; split <;> rfl

@[simp] theorem movePowerUp_frameCount (g : Game) : (movePowerUp g).frameCount = g.frameCount := by
  unfold movePowerUp; simp only []; split_ifs <;> rfl

@[simp] theorem updateBoss_score (sqrt : ℚ → ℚ) (r : Rng) (g : Game) :
    (updateBoss sqrt r g).1.game.score = g.score := by
  unfold updateBoss; simp only []; split_ifs <;> rfl

@[simp] theorem updateBoss_enemies (sqrt : ℚ → ℚ) (r : Rng) (g : Game) :
    (updateBoss sqrt r g).1.game.enemies = g.enemies := by
  unfold updateBoss; simp only []; split_ifs <;> rfl

@[simp] theorem updateBoss_frameCount (sqrt : ℚ → ℚ) (r : Rng) (g : Game) :
    (updateBoss sqrt r g).1.game.frameCount = g.frameCount := by
  unfold updateBoss; simp only []; split_ifs <;> rfl

@[simp] theorem spawnEnemy_score (r : Rng) (g : Game) : (spawnEnemy r g).1.score = g.score := by
  unfold spawnEnemy; simp only []; split <;> rfl

@[simp] theorem spawnEnemy_playerBullets (r : Rng) (g : Game) :
    (spawnEnemy r g).1.playerBullets = g.playerBullets := by
  unfold spawnEnemy; simp only []; split <;> rfl

@[simp] theorem spawnEnemy_frameCount (r : Rng) (g : Game) :
    (spawnEnemy r g).1.frameCount = g.frameCount := by
  unfold spawnEnemy; simp only []; split <;> rfl

/-- A field that the power-up block does not write has, after the gameplay
step, the value the boss block left. -/
theorem gameplay_field_boss {α : Type} (f : Game → α) (sqrt : ℚ → ℚ) (inp : Input) (r : Rng)
    (g : Game) (hA : ∀ r g, f (gameplayAfterBoss r g).1 = f g) :
    f (gameplay sqrt inp r g).1 =
      f (updateBoss sqrt (gameplayToBoss sqrt inp r g).2 (gameplayToBoss sqrt inp r g).1).1.game := by
  unfold gameplay
  simp only []
  split <;> rename_i heq <;> rw [heq] <;> simp [Flow.game, hA]

/-- A field that neither the boss block nor the power-up block writes has,
after the gameplay step, the value it had when the boss block was reached. -/
theorem gameplay_field {α : Type} (f : Game → α) (sqrt : ℚ → ℚ) (inp : Input) (r : Rng)
    (g : Game) (hB : ∀ r g, f (updateBoss sqrt r g).1.game = f g)
    (hA : ∀ r g, f (gameplayAfterBoss r g).1 = f g) :
    f (gameplay sqrt inp r g).1 = f (gameplayToBoss sqrt inp r g).1 := by
  rw [gameplay_field_boss f sqrt inp r g hA, hB]

@[simp] theorem beforeEnemies_enemies (inp : Input) (g : Game) :
    (beforeEnemies inp g).enemies = g.enemies := by
  simp only [beforeEnemies, updatePlayerBullets, movePlayer, shoot]; split <;> rfl

@[simp] theorem beforeEnemies_score (inp : Input) (g : Game) :
    (beforeEnemies inp g).score = g.score := by
  simp only [beforeEnemies, updatePlayerBullets, movePlayer, shoot]; split <;> rfl

@[simp] theorem beforeEnemies_playerLives (inp : Input) (g : Game) :
    (beforeEnemies inp g).playerLives = g.playerLives := by
  simp only [beforeEnemies, updatePlayerBullets, movePlayer, shoot]; split <;> rfl

@[simp] theorem beforeEnemies_frameCount (inp : Input) (g : Game) :
    (beforeEnemies inp g).frameCount = g.frameCount + 1 := by
  simp only [beforeEnemies, updatePlayerBullets, movePlayer, shoot]; split <;> rfl

@[simp] theorem beforeEnemies_player (inp : Input) (g : Game) :
    (beforeEnemies inp g).player = (movePlayer inp g).player := by
  simp only [beforeEnemies, updatePlayerBullets, shoot]; split <;> rfl

/-- The enemy loop writes the player, the player bullets, the score and the
lives, and nothing else of the game (the enemies are written back by `updateEnemies`). -/
theorem updateEnemy_frame (e : Enemy) (g : Game) :
    (updateEnemy e g).2 =
      { g with
        player := (updateEnemy e g).2.player
        playerBullets := (updateEnemy e g).2.playerBullets
        score := (updateEnemy e g).2.score
        playerLives := (updateEnemy e g).2.playerLives } := by
  unfold updateEnemy hitPlayer
  simp only []
  split_ifs <;> rfl

theorem updateEnemiesLoop_frame (es : List Enemy) (g : Game) :
    (updateEnemiesLoop es g).2 =
      { g with
        player := (updateEnemiesLoop es g).2.player
        playerBullets := (updateEnemiesLoop es g).2.playerBullets
        score := (updateEnemiesLoop es g).2.score
        playerLives := (updateEnemiesLoop es g).2.playerLives } := by
  induction es generalizing g with
  | nil => rfl
  | cons e es ih =>
    have h1 := ih (updateEnemy e g).2
    have h2 := updateEnemy_frame e g
    simp only [updateEnemiesLoop]
    generalize (updateEnemiesLoop es (updateEnemy e g).2).2 = a at h1 ⊢
    generalize (updateEnemy e g).2 = b at h1 h2 ⊢
    rw [h1, h2]

@[simp] theorem updateEnemiesLoop_frameCount (es : List Enemy) (g : Game) :
    (updateEnemiesLoop es g).2.frameCount = g.frameCount := by
  rw [updateEnemiesLoop_frame]

theorem gameplay_score (sqrt : ℚ → ℚ) (inp : Input) (r : Rng) (g : Game) :
    (gameplay sqrt inp r g).1.score =
      (updateEnemiesLoop g.enemies (beforeEnemies inp g)).2.score := by
  rw [gameplay_field Game.score sqrt inp r g (by simp) (by simp [gameplayAfterBoss])]
  simp [gameplayToBoss, enemiesShoot, updateEnemyBullets, clampEnemies, updateEnemies]

theorem gameplay_frameCount (sqrt : ℚ → ℚ) (inp : Input) (r : Rng) (g : Game) :
    (gameplay sqrt inp r g).1.frameCount = g.frameCount + 1 := by
  rw [gameplay_field Game.frameCount sqrt inp r g (by simp) (by simp [gameplayAfterBoss])]
  simp [gameplayToBoss, enemiesShoot, updateEnemyBullets, clampEnemies, updateEnemies]

/-! ## Enemy defeats -/

theorem enemiesShootLoop_active (sqrt : ℚ → ℚ) (p : Player) (es : List Enemy) (r : Rng) :
    (enemiesShootLoop sqrt p es r).1.map Enemy.active = es.map Enemy.active := by
  induction es generalizing r with
  | nil => rfl
  | cons e es ih =>
    have he : (enemyShoot sqrt p e r).1.active = e.active := by
      unfold enemyShoot
      simp only []
      split_ifs <;> rfl
    simp [enemiesShootLoop, ih, he]

theorem clampEnemy_active (e : Enemy) : (clampEnemy e).active = e.active := by
  unfold clampEnemy
  split <;> rfl

theorem spawnEnemy_enemies (r : Rng) (g : Game) :
    ∃ l, (spawnEnemy r g).1.enemies = g.enemies ++ l := by
  unfold spawnEnemy
  simp only []
  split
  · exact ⟨_, rfl⟩
  · exact ⟨[], by simp⟩

theorem gameplay_enemies_active (sqrt : ℚ → ℚ) (inp : Input) (r : Rng) (g : Game) :
    ∃ l, (gameplay sqrt inp r g).1.enemies.map Enemy.active =
      (updateEnemiesLoop g.enemies (beforeEnemies inp g)).1.map Enemy.active ++ l := by
  rw [gameplay_field Game.enemies sqrt inp r g (by simp) (by simp [gameplayAfterBoss])]
  obtain ⟨l, hl⟩ := spawnEnemy_enemies r (updateEnemies (beforeEnemies inp g))
  refine ⟨l.map Enemy.active, ?_⟩
  have hc : (Enemy.active ∘ clampEnemy) = Enemy.active := funext clampEnemy_active
  simp only [gameplayToBoss, enemiesShoot, enemiesShootLoop_active, updateEnemyBullets,
    clampEnemies, List.map_map, hc, hl, List.map_append]
  simp [updateEnemies]

theorem gameplay_playerBullets_deactivated (sqrt : ℚ → ℚ) (inp : Input) (r : Rng) (g : Game) :
    List.Forall₂ Deactivated
      (updateEnemiesLoop g.enemies (beforeEnemies inp g)).2.playerBullets
      (gameplay sqrt inp r g).1.playerBullets := by
  rw [gameplay_field_boss Game.playerBullets sqrt inp r g (by simp [gameplayAfterBoss])]
  have h := updateBoss_deactivated sqrt (gameplayToBoss sqrt inp r g).2
    (gameplayToBoss sqrt inp r g).1
  have he : (gameplayToBoss sqrt inp r g).1.playerBullets =
      (updateEnemiesLoop g.enemies (beforeEnemies inp g)).2.playerBullets := by
    simp [gameplayToBoss, enemiesShoot, updateEnemyBullets, clampEnemies, updateEnemies]
  rw [he] at h
  exact h

/-- C3 (as amended): on a gameplay tick, let an active enemy and an active
player bullet overlap once both have moved (the bullet list taken after this
tick's shot and bullet movement, the enemy after its move down), and let no
other pair of an active enemy and an active bullet overlap then.  After that one
`Update` the enemy and the bullet are both inactive and the score is exactly
one greater than before the `Update`. -/
theorem enemy_defeat_single_pair (sqrt : ℚ → ℚ) (inp : Input) (r : Rng) (g g1 : Game)
    (i j : Nat) (e : Enemy) (b : PlayerBullet)
    (h : beforeGameplay inp g = .next g1)
    (hi : g1.enemies[i]? = some e) (ha : e.active = true)
    (hj : (beforeEnemies inp g1).playerBullets[j]? = some b) (hb : b.active = true)
    (hc : collision (moveEnemy e) b = true)
    (hu : ∀ i' j' e' b', g1.enemies[i']? = some e' → e'.active = true →
      (beforeEnemies inp g1).playerBullets[j']? = some b' → b'.active = true →
      collision (moveEnemy e') b' = true → i' = i ∧ j' = j) :
    ((Update sqrt inp r g).1.enemies[i]?).map Enemy.active = some false ∧
    ((Update sqrt inp r g).1.playerBullets[j]?).map PlayerBullet.active = some false ∧
    (Update sqrt inp r g).1.score = g.score + 1 := by
  obtain ⟨hk, -, -, -⟩ := beforeGameplay_next inp g g1 h
  have hne : g1.enemies ≠ [] := by
    intro h0
    rw [h0] at hi
    simp at hi
  obtain ⟨h1, h2, h3⟩ := updateEnemiesLoop_one g1.enemies (beforeEnemies inp g1) i j e b hi ha
    hj hb hc hu
  simp only [Update, h]
  refine ⟨?_, ?_, ?_⟩
  · obtain ⟨l, hl⟩ := gameplay_enemies_active sqrt inp r g1
    rw [← List.getElem?_map, hl]
    rw [← List.getElem?_map] at h1
    have hlt : i < ((updateEnemiesLoop g1.enemies (beforeEnemies inp g1)).1.map
        Enemy.active).length := by
      by_contra hge
      rw [List.getElem?_eq_none (by omega)] at h1
      cases h1
    rw [List.getElem?_append_left hlt]
    exact h1
  · apply deactivated_inactive_at (gameplay_playerBullets_deactivated sqrt inp r g1) j
    rw [h2, List.getElem?_set_self', hj]
    rfl
  · rw [gameplay_score, h3, beforeEnemies_score, keepsCore_score_eq hk hne]

section ConcreteC3

attribute [local simp] Update beforeGameplay beforeGameOverCheck competitionGame startScreen
  languageScreen initialGame idleInput initializeGame storySequencer menuButton pauseButton
  gameOverCheck gameplay gameplayToBoss updateBoss gameplayAfterBoss beforeEnemies movePlayer
  shoot updatePlayerBullets updateEnemies updateEnemiesLoop updateEnemy moveEnemy hitPlayer
  hitPlayerBullets movePlayerBullet newPlayerBullet spawnEnemy clampEnemies clampEnemy
  updateEnemyBullets updateEnemyBulletsLoop updateEnemyBullet moveEnemyBullet enemiesShoot
  enemiesShootLoop enemyShoot respawnPowerUp movePowerUp fallPowerUp quietRng Rng.nextIntn
  Rng.nextFloat64 clamp collision
  Positioned.getX Positioned.getY screenWidth screenHeight shootCooldown shootSpeed
  powerUpRespawnTime

theorem enemy_defeat_single_pair_witness :
    beforeGameplay idleInput singleHitGame = .next singleHitGame ∧
    ((Update (fun q => q) idleInput quietRng singleHitGame).1.enemies[0]?).map Enemy.active
      = some false ∧
    ((Update (fun q => q) idleInput quietRng singleHitGame).1.playerBullets[0]?).map
      PlayerBullet.active = some false ∧
    (Update (fun q => q) idleInput quietRng singleHitGame).1.score = singleHitGame.score + 1 := by
  have hbs : (beforeEnemies idleInput singleHitGame).playerBullets =
      [{ x := 100, y := 100, speed := 5, active := true },
       { x := 335, y := 425, speed := 5, active := true }] := by
    simp [singleHitGame]
    norm_num
  refine ⟨rfl, enemy_defeat_single_pair (fun q => q) idleInput quietRng singleHitGame
    singleHitGame 0 0 { x := 100, y := 100, speedY := 3, active := true, hasShot := false }
    { x := 100, y := 100, speed := 5, active := true } rfl rfl rfl (by rw [hbs]; rfl) rfl
    (by simp; norm_num) ?_⟩
  intro i' j' e' b' hi' _ hj' _ hc'
  rw [hbs] at hj'
  rcases i' with _ | i'
  · rcases j' with _ | _ | j'
    · exact ⟨rfl, rfl⟩
    · simp [singleHitGame] at hi' hj'
      subst hi' hj'
      simp at hc'
      norm_num at hc'
    · simp at hj'
  · simp [singleHitGame] at hi'

/-- C3 (as stated) fails.  In `grazingGame` an active enemy and an active bullet
overlap, yet after `Update` both are still active and the score is unchanged:
the bullet moves up and the enemy down before the test.  In `doubleHitGame` two
bullets overlap one enemy and the score goes up by two. -/
theorem enemy_defeat_counterexample :
    (beforeGameplay idleInput grazingGame = .next grazingGame ∧
      grazingGame.enemies.map Enemy.active = [true] ∧
      grazingGame.playerBullets.map PlayerBullet.active = [true] ∧
      (∀ e ∈ grazingGame.enemies, ∀ b ∈ grazingGame.playerBullets, collision e b = true) ∧
      (Update (fun q => q) idleInput quietRng grazingGame).1.enemies.map Enemy.active = [true] ∧
      (Update (fun q => q) idleInput quietRng grazingGame).1.playerBullets.map
        PlayerBullet.active = [true, true] ∧
      (Update (fun q => q) idleInput quietRng grazingGame).1.score = grazingGame.score) ∧
    (beforeGameplay idleInput doubleHitGame = .next doubleHitGame ∧
      doubleHitGame.enemies.map Enemy.active = [true] ∧
      doubleHitGame.playerBullets.map PlayerBullet.active = [true, true] ∧
      (∀ e ∈ doubleHitGame.enemies, ∀ b ∈ doubleHitGame.playerBullets, collision e b = true) ∧
      (Update (fun q => q) idleInput quietRng doubleHitGame).1.score
        = doubleHitGame.score + 2) := by
  refine ⟨⟨rfl, rfl, rfl, ?_, ?_, ?_, ?_⟩, ⟨rfl, rfl, rfl, ?_, ?_⟩⟩
  · simp [grazingGame, collision, Positioned.getX, Positioned.getY]
    norm_num
  · simp [grazingGame]
    norm_num
  · simp [grazingGame]
    norm_num
  · simp [grazingGame]
    norm_num
  · simp [doubleHitGame, collision, Positioned.getX, Positioned.getY]
    norm_num
  · simp [doubleHitGame]
    norm_num

end ConcreteC3

/-! ## An enemy on the player -/

theorem collision_congr {α β α' β' : Type} [Positioned α] [Positioned β] [Positioned α']
    [Positioned β'] (a : α) (b : β) (a' : α') (b' : β')
    (hax : Positioned.getX a = Positioned.getX a') (hay : Positioned.getY a = Positioned.getY a')
    (hbx : Positioned.getX b = Positioned.getX b') (hby : Positioned.getY b = Positioned.getY b') :
    collision a b = collision a' b' := by
  simp only [collision, hax, hay, hbx, hby]

theorem hitPlayerBullets_pos (e : Enemy) (bs : List PlayerBullet) (s : Int) :
    (hitPlayerBullets e bs s).1.x = e.x ∧ (hitPlayerBullets e bs s).1.y = e.y := by
  induction bs generalizing e s with
  | nil => exact ⟨rfl, rfl⟩
  | cons b bs ih =>
    unfold hitPlayerBullets
    split_ifs
    · exact ih _ _
    · exact ih _ _

theorem updateEnemy_inactive (e : Enemy) (g : Game) (h : e.active = false) :
    updateEnemy e g = (e, g) := by
  simp [updateEnemy, h]

theorem updateEnemiesLoop_inactive (es : List Enemy) (g : Game)
    (h : ∀ e ∈ es, e.active = false) : updateEnemiesLoop es g = (es, g) := by
  induction es generalizing g with
  | nil => rfl
  | cons e es ih =>
    simp only [updateEnemiesLoop, updateEnemy_inactive e g (h e (List.mem_cons_self _ _))]
    rw [ih g (fun e' he' => h e' (List.mem_cons_of_mem _ he'))]

/-- An active enemy whose box, after its move, overlaps the player's: one life
less, and the player back on the spawn position. -/
theorem updateEnemy_on_player (e : Enemy) (g : Game) (ha : e.active = true)
    (hc : collision (moveEnemy e) g.player = true) :
    (updateEnemy e g).2.playerLives = g.playerLives - 1 ∧
    (updateEnemy e g).2.player =
      { g.player with x := screenWidth / 2, y := screenHeight - 50 } := by
  have hp := hitPlayerBullets_pos (moveEnemy e) g.playerBullets g.score
  have hcol : collision (hitPlayerBullets (moveEnemy e) g.playerBullets g.score).1
      ({ x := g.player.x, y := g.player.y, speedY := 0, active := false,
         hasShot := false } : Enemy) = true := by
    rw [← hc]
    exact collision_congr _ _ _ _ hp.1 hp.2 rfl rfl
  simp [updateEnemy, ha, hitPlayer, hcol]

theorem updateEnemiesLoop_on_player (es : List Enemy) (g : Game) (i : Nat) (e : Enemy)
    (hi : es[i]? = some e) (ha : e.active = true)
    (hone : ∀ i' e', es[i']? = some e' → e'.active = true → i' = i)
    (hc : collision (moveEnemy e) g.player = true) :
    (updateEnemiesLoop es g).2.playerLives = g.playerLives - 1 ∧
    (updateEnemiesLoop es g).2.player =
      { g.player with x := screenWidth / 2, y := screenHeight - 50 } := by
  induction es generalizing i with
  | nil => simp at hi
  | cons e0 es ih =>
    cases i with
    | zero =>
      simp only [List.getElem?_cons_zero, Option.some.injEq] at hi
      subst hi
      have hrest : ∀ e' ∈ es, e'.active = false := by
        intro e' he'
        obtain ⟨n, hn⟩ := List.mem_iff_getElem?.mp he'
        by_contra hact
        have := hone (n + 1) e' (by simpa using hn) (by simpa using hact)
        omega
      simp only [updateEnemiesLoop, updateEnemiesLoop_inactive es _ hrest]
      exact updateEnemy_on_player e0 g ha hc
    | succ i =>
      have h0 : e0.active = false := by
        by_contra hact
        have := hone 0 e0 (by simp) (by simpa using hact)
        omega
      simp only [updateEnemiesLoop, updateEnemy_inactive e0 g h0]
      exact ih i (by simpa using hi) (fun i' e' hi' hact => by
        have := hone (i' + 1) e' (by simpa using hi') hact
        omega)

theorem updateEnemyBulletsLoop_none (p : Player) (bs : List EnemyBullet) (lives : Int)
    (h : ∀ b ∈ bs, b.active = true → collision p (moveEnemyBullet b) = false) :
    (updateEnemyBulletsLoop p bs lives).2 = lives := by
  induction bs generalizing lives with
  | nil => rfl
  | cons b bs ih =>
    have hb : (updateEnemyBullet p b lives).2 = lives := by
      unfold updateEnemyBullet
      simp only []
      split_ifs with ha hcol
      · rw [h b (List.mem_cons_self _ _) ha] at hcol
        cases hcol
      · rfl
      · rfl
    simp only [updateEnemyBulletsLoop, hb]
    exact ih lives (fun b' hb' => h b' (List.mem_cons_of_mem _ hb'))

theorem movePowerUp_playerLives_none (g : Game)
    (h : (fallPowerUp g.powerUp).active = true →
      collision g.player (fallPowerUp g.powerUp) = false) :
    (movePowerUp g).playerLives = g.playerLives := by
  unfold movePowerUp
  simp only []
  split_ifs with h1 h2 h3 h4 h5 <;> first | rfl | (exfalso; simp_all)

@[simp] theorem respawnPowerUp_playerLives (r : Rng) (g : Game) :
    (respawnPowerUp r g).1.playerLives = g.playerLives := by
  unfold respawnPowerUp; simp only []; split <;> rfl

@[simp] theorem updateBoss_playerLives (sqrt : ℚ → ℚ) (r : Rng) (g : Game) :
    (updateBoss sqrt r g).1.game.playerLives = g.playerLives := by
  unfold updateBoss; simp only []; split_ifs <;> rfl

@[simp] theorem spawnEnemy_playerLives (r : Rng) (g : Game) :
    (spawnEnemy r g).1.playerLives = g.playerLives := by
  unfold spawnEnemy; simp only []; split <;> rfl

@[simp] theorem spawnEnemy_enemyBullets (r : Rng) (g : Game) :
    (spawnEnemy r g).1.enemyBullets = g.enemyBullets := by
  unfold spawnEnemy; simp only []; split <;> rfl

@[simp] theorem updateEnemiesLoop_enemyBullets (es : List Enemy) (g : Game) :
    (updateEnemiesLoop es g).2.enemyBullets = g.enemyBullets := by
  rw [updateEnemiesLoop_frame]

@[simp] theorem beforeEnemies_enemyBullets (inp : Input) (g : Game) :
    (beforeEnemies inp g).enemyBullets = g.enemyBullets := by
  simp only [beforeEnemies, updatePlayerBullets, movePlayer, shoot]; split <;> rfl

/-- The lives when the boss block is reached: the enemy loop's count, less the
enemy bullets that hit the player where the enemy loop left it. -/
theorem gameplayToBoss_playerLives (sqrt : ℚ → ℚ) (inp : Input) (r : Rng) (g : Game) :
    (gameplayToBoss sqrt inp r g).1.playerLives =
      (updateEnemyBulletsLoop (updateEnemiesLoop g.enemies (beforeEnemies inp g)).2.player
        g.enemyBullets (updateEnemiesLoop g.enemies (beforeEnemies inp g)).2.playerLives).2 := by
  simp [gameplayToBoss, enemiesShoot, updateEnemyBullets, clampEnemies, updateEnemies]

theorem gameplayToBoss_player (sqrt : ℚ → ℚ) (inp : Input) (r : Rng) (g : Game) :
    (gameplayToBoss sqrt inp r g).1.player =
      (updateEnemiesLoop g.enemies (beforeEnemies inp g)).2.player := by
  simp [gameplayToBoss]

/-- The lives after the gameplay step when the power-up, as the pickup test
finds it, does not lie on the player. -/
theorem gameplay_playerLives_no_pickup (sqrt : ℚ → ℚ) (inp : Input) (r : Rng) (g : Game)
    (h : (powerUpAtPickup sqrt inp r g).active = true →
      collision (gameplayToBoss sqrt inp r g).1.player (powerUpAtPickup sqrt inp r g) = false) :
    (gameplay sqrt inp r g).1.playerLives = (gameplayToBoss sqrt inp r g).1.playerLives := by
  unfold gameplay
  simp only []
  have hl := updateBoss_playerLives sqrt (gameplayToBoss sqrt inp r g).2
    (gameplayToBoss sqrt inp r g).1
  have hp := updateBoss_player sqrt (gameplayToBoss sqrt inp r g).2
    (gameplayToBoss sqrt inp r g).1
  unfold powerUpAtPickup bossStep at h
  split <;> rename_i heq <;> rw [heq] at hl hp h <;> simp only [Flow.game] at hl hp h
  · exact hl
  · simp only [gameplayAfterBoss]
    rw [movePowerUp_playerLives_none, respawnPowerUp_playerLives, hl]
    rw [respawnPowerUp_player, hp]
    exact h

/-- C4 (as amended): in Competition mode (the mode plays no part), on a gameplay
tick with exactly one active enemy whose box overlaps the player's once both
have moved (the player by the arrow keys, clamped; the enemy down by its
speedY), with no active enemy
bullet that, after its move, touches a player standing on the spawn position,
and with the power-up, as the pickup test finds it, inactive or not touching
that position: after one `Update`, `playerLives` is exactly one less than before
and the player position is `(screenWidth/2, screenHeight-50) = (320, 430)`. -/
theorem enemy_on_player_costs_one_life (sqrt : ℚ → ℚ) (inp : Input) (r : Rng) (g g1 : Game)
    (i : Nat) (e : Enemy)
    (h : beforeGameplay inp g = .next g1)
    (hi : g1.enemies[i]? = some e) (ha : e.active = true)
    (hone : ∀ i' e', g1.enemies[i']? = some e' → e'.active = true → i' = i)
    (hc : collision (moveEnemy e) (movePlayer inp g1).player = true)
    (hb : ∀ b ∈ g1.enemyBullets, b.active = true →
      collision spawnPoint (moveEnemyBullet b) = false)
    (hp : (powerUpAtPickup sqrt inp r g1).active = true →
      collision spawnPoint (powerUpAtPickup sqrt inp r g1) = false) :
    (Update sqrt inp r g).1.playerLives = g.playerLives - 1 ∧
    (Update sqrt inp r g).1.player.x = 320 ∧ (Update sqrt inp r g).1.player.y = 430 := by
  obtain ⟨hk, -, -, -⟩ := beforeGameplay_next inp g g1 h
  obtain ⟨hl, hpl⟩ := updateEnemiesLoop_on_player g1.enemies (beforeEnemies inp g1) i e hi ha
    hone (by rw [beforeEnemies_player]; exact hc)
  have hpos : (gameplayToBoss sqrt inp r g1).1.player.x = 320 ∧
      (gameplayToBoss sqrt inp r g1).1.player.y = 430 := by
    rw [gameplayToBoss_player, hpl]
    norm_num [screenWidth, screenHeight]
  have hsx : Positioned.getX spawnPoint = 320 := by
    norm_num [spawnPoint, Positioned.getX, screenWidth]
  have hsy : Positioned.getY spawnPoint = 430 := by
    norm_num [spawnPoint, Positioned.getY, screenHeight]
  simp only [Update, h]
  refine ⟨?_, ?_, ?_⟩
  · rw [gameplay_playerLives_no_pickup, gameplayToBoss_playerLives, updateEnemyBulletsLoop_none,
      hl, beforeEnemies_playerLives, hk.2.1]
    · intro b hb' hact
      rw [← hb b hb' hact]
      refine collision_congr _ _ _ _ ?_ ?_ rfl rfl
      · rw [hsx]; exact (congrArg Player.x hpl).trans (by norm_num [screenWidth])
      · rw [hsy]; exact (congrArg Player.y hpl).trans (by norm_num [screenHeight])
    · intro hact
      rw [← hp hact]
      refine collision_congr _ _ _ _ ?_ ?_ rfl rfl
      · rw [hsx]; exact hpos.1
      · rw [hsy]; exact hpos.2
  · rw [gameplay_player]; exact hpos.1
  · rw [gameplay_player]; exact hpos.2

section ConcreteC4

attribute [local simp] Update beforeGameplay beforeGameOverCheck competitionGame startScreen
  languageScreen initialGame idleInput initializeGame storySequencer menuButton pauseButton
  gameOverCheck gameplay gameplayToBoss updateBoss gameplayAfterBoss beforeEnemies movePlayer
  shoot updatePlayerBullets updateEnemies updateEnemiesLoop updateEnemy moveEnemy hitPlayer
  hitPlayerBullets movePlayerBullet newPlayerBullet spawnEnemy clampEnemies clampEnemy
  updateEnemyBullets updateEnemyBulletsLoop updateEnemyBullet moveEnemyBullet enemiesShoot
  enemiesShootLoop enemyShoot respawnPowerUp movePowerUp fallPowerUp quietRng Rng.nextIntn
  Rng.nextFloat64 clamp collision Positioned.getX Positioned.getY screenWidth screenHeight
  shootCooldown shootSpeed powerUpRespawnTime

theorem enemy_on_player_costs_one_life_witness :
    beforeGameplay idleInput enemyOnPlayerGame = .next enemyOnPlayerGame ∧
    enemyOnPlayerGame.gameMode = .Competition ∧ enemyOnPlayerGame.playerLives = 3 ∧
    (Update (fun q => q) idleInput quietRng enemyOnPlayerGame).1.playerLives = 3 - 1 ∧
    (Update (fun q => q) idleInput quietRng enemyOnPlayerGame).1.player.x = 320 ∧
    (Update (fun q => q) idleInput quietRng enemyOnPlayerGame).1.player.y = 430 := by
  refine ⟨rfl, rfl, rfl, enemy_on_player_costs_one_life (fun q => q) idleInput quietRng
    enemyOnPlayerGame enemyOnPlayerGame 0
    { x := 320, y := 430, speedY := 3, active := true, hasShot := false } rfl rfl rfl ?_ ?_ ?_ ?_⟩
  · intro i' e' hi' _
    rcases i' with _ | i'
    · rfl
    · simp [enemyOnPlayerGame] at hi'
  · simp [enemyOnPlayerGame]
    norm_num
  · simp [enemyOnPlayerGame]
  · intro hact
    norm_num [powerUpAtPickup, bossStep, enemyOnPlayerGame, Flow.game] at hact

/-- C4 (as stated) fails.  In `enemyBesidePlayerGame` the only active enemy
overlaps the player, no enemy bullet exists and the power-up is inactive; with
the right arrow held the player steps out of the enemy's box before the test,
and keeps its three lives and its place.  In `bulletAtSpawnGame` the enemy bullet
touches the player neither before nor after its move, yet two lives are lost:
the enemy sends the player to the spawn position, where the bullet lands. -/
theorem enemy_on_player_counterexample :
    (beforeGameplay { idleInput with keyArrowRight := true } enemyBesidePlayerGame
        = .next enemyBesidePlayerGame ∧
      enemyBesidePlayerGame.gameMode = .Competition ∧
      enemyBesidePlayerGame.enemies.map Enemy.active = [true] ∧
      (∀ e ∈ enemyBesidePlayerGame.enemies, collision e enemyBesidePlayerGame.player = true) ∧
      enemyBesidePlayerGame.enemyBullets = [] ∧
      enemyBesidePlayerGame.powerUp.active = false ∧
      enemyBesidePlayerGame.playerLives = 3 ∧
      (Update (fun q => q) { idleInput with keyArrowRight := true } quietRng
        enemyBesidePlayerGame).1.playerLives = 3 ∧
      (Update (fun q => q) { idleInput with keyArrowRight := true } quietRng
        enemyBesidePlayerGame).1.player.x = 324) ∧
    (beforeGameplay idleInput bulletAtSpawnGame = .next bulletAtSpawnGame ∧
      bulletAtSpawnGame.gameMode = .Competition ∧
      bulletAtSpawnGame.enemies.map Enemy.active = [true] ∧
      (∀ e ∈ bulletAtSpawnGame.enemies, collision e bulletAtSpawnGame.player = true) ∧
      (∀ b ∈ bulletAtSpawnGame.enemyBullets,
        collision bulletAtSpawnGame.player b = false ∧
        collision bulletAtSpawnGame.player (moveEnemyBullet b) = false) ∧
      bulletAtSpawnGame.powerUp.active = false ∧
      bulletAtSpawnGame.playerLives = 3 ∧
      (Update (fun q => q) idleInput quietRng bulletAtSpawnGame).1.playerLives = 1) := by
  refine ⟨⟨rfl, rfl, rfl, ?_, rfl, rfl, rfl, ?_, ?_⟩, ⟨rfl, rfl, rfl, ?_, ?_, rfl, rfl, ?_⟩⟩
  · simp [enemyBesidePlayerGame]
    norm_num
  · simp [enemyBesidePlayerGame]
    norm_num
  · simp [enemyBesidePlayerGame]
    norm_num
  · simp [bulletAtSpawnGame]
  · simp [bulletAtSpawnGame]
    norm_num
  · simp [bulletAtSpawnGame]
    norm_num

end ConcreteC4

/-! ## Lives -/

theorem updateEnemy_playerLives_le (e : Enemy) (g : Game) :
    (updateEnemy e g).2.playerLives ≤ g.playerLives := by
  unfold updateEnemy hitPlayer
  simp only []
  split_ifs <;> simp

theorem updateEnemiesLoop_playerLives_le (es : List Enemy) (g : Game) :
    (updateEnemiesLoop es g).2.playerLives ≤ g.playerLives := by
  induction es generalizing g with
  | nil => exact le_refl _
  | cons e es ih => exact le_trans (ih _) (updateEnemy_playerLives_le e g)

theorem updateEnemyBulletsLoop_le (p : Player) (bs : List EnemyBullet) (lives : Int) :
    (updateEnemyBulletsLoop p bs lives).2 ≤ lives := by
  induction bs generalizing lives with
  | nil => exact le_refl _
  | cons b bs ih =>
    have hb : (updateEnemyBullet p b lives).2 ≤ lives := by
      unfold updateEnemyBullet
      simp only []
      split_ifs <;> simp
    exact le_trans (ih _) hb

theorem movePowerUp_playerLives_le (g : Game) (h : g.playerLives ≤ 3) :
    (movePowerUp g).playerLives ≤ 3 := by
  unfold movePowerUp
  simp only []
  split_ifs with h1 h2 <;> simp_all <;> omega

theorem gameplay_playerLives_le (sqrt : ℚ → ℚ) (inp : Input) (r : Rng) (g : Game)
    (h : g.playerLives ≤ 3) : (gameplay sqrt inp r g).1.playerLives ≤ 3 := by
  have hs : (gameplayToBoss sqrt inp r g).1.playerLives ≤ 3 := by
    rw [gameplayToBoss_playerLives]
    refine le_trans (updateEnemyBulletsLoop_le _ _ _) (le_trans
      (updateEnemiesLoop_playerLives_le _ _) ?_)
    rw [beforeEnemies_playerLives]
    exact h
  have hl := updateBoss_playerLives sqrt (gameplayToBoss sqrt inp r g).2
    (gameplayToBoss sqrt inp r g).1
  unfold gameplay
  simp only []
  split <;> rename_i heq <;> rw [heq] at hl <;> simp only [Flow.game] at hl
  · rw [hl]; exact hs
  · simp only [gameplayAfterBoss]
    apply movePowerUp_playerLives_le
    rw [respawnPowerUp_playerLives, hl]
    exact hs

theorem storySequencer_playerLives (inp : Input) (g : Game) :
    (storySequencer inp g).game.playerLives = g.playerLives := by
  unfold storySequencer
  split_ifs
  · cases hv : storyVideo inp g with
    | done g' =>
      unfold storyVideo at hv
      simp only [] at hv
      split_ifs at hv <;> cases hv <;> rfl
    | next g' =>
      have hg' : g'.playerLives = g.playerLives := (storyVideo_next inp g g' hv).2.1
      simp only []
      cases hc : g'.storyChapter
      cases hl : g'.storyLevel <;> simp only []
      · rw [← hg']
        unfold storyLevel1
        simp only []
        split_ifs <;> simp [Flow.game, initializeLevel]
      · rw [← hg']
        unfold storyLevel2
        simp only []
        split_ifs <;> simp [Flow.game, initializeLevel]
      · rw [← hg']
        unfold storyLevel3
        simp only []
        split_ifs <;> simp [Flow.game]
  · rfl

theorem beforeGameplay_done_playerLives (inp : Input) (g g1 : Game)
    (h : beforeGameplay inp g = .done g1) :
    g1.playerLives = g.playerLives ∨ g1.playerLives = 3 := by
  unfold beforeGameplay beforeGameOverCheck at h
  split_ifs at h with h1 h2
  · cases h
    unfold languageScreen
    split_ifs <;> exact Or.inl rfl
  · cases h
    unfold startScreen
    split_ifs
    · exact Or.inr rfl
    · exact Or.inr rfl
    · exact Or.inl rfl
  · have hs := storySequencer_playerLives inp g
    revert h
    cases hq : storySequencer inp g with
    | done g' =>
      rw [hq] at hs
      simp only []
      intro h
      cases h
      exact Or.inl hs
    | next g' =>
      rw [hq] at hs
      simp only [Flow.game] at hs
      have hb : (menuButton inp (pauseButton inp g')).playerLives = g.playerLives := by
        rw [(menuButton_keeps inp _).2.1, (pauseButton_keeps inp _).2.1, hs]
      simp only []
      split_ifs
      · intro h
        cases h
        exact Or.inl hb
      · simp only []
        unfold gameOverCheck
        simp only []
        intro h
        split_ifs at h <;> cases h <;> simp [initializeGame, hb]

/-- C5 (as amended): `playerLives` never exceeds 3.  For every game state with
`playerLives ≤ 3`, every input and every outcome of the random draws, the state
after `Update` still has `playerLives ≤ 3`.  (No lower bound is kept: every hit
of a tick takes a life, see `lives_counterexample`.) -/
theorem lives_at_most_three (sqrt : ℚ → ℚ) (inp : Input) (r : Rng) (g : Game)
    (h : g.playerLives ≤ 3) : (Update sqrt inp r g).1.playerLives ≤ 3 := by
  unfold Update
  cases hq : beforeGameplay inp g with
  | done g1 =>
    simp only []
    rcases beforeGameplay_done_playerLives inp g g1 hq with h1 | h1 <;> omega
  | next g1 =>
    simp only []
    apply gameplay_playerLives_le
    rw [(beforeGameplay_next inp g g1 hq).1.2.1]
    exact h

section ConcreteC5

attribute [local simp] Update beforeGameplay beforeGameOverCheck competitionGame startScreen
  languageScreen initialGame idleInput initializeGame storySequencer menuButton pauseButton
  gameOverCheck gameplay gameplayToBoss updateBoss gameplayAfterBoss beforeEnemies movePlayer
  shoot updatePlayerBullets updateEnemies updateEnemiesLoop updateEnemy moveEnemy hitPlayer
  hitPlayerBullets movePlayerBullet newPlayerBullet spawnEnemy clampEnemies clampEnemy
  updateEnemyBullets updateEnemyBulletsLoop updateEnemyBullet moveEnemyBullet enemiesShoot
  enemiesShootLoop enemyShoot respawnPowerUp movePowerUp fallPowerUp quietRng Rng.nextIntn
  Rng.nextFloat64 clamp collision Positioned.getX Positioned.getY screenWidth screenHeight
  shootCooldown shootSpeed powerUpRespawnTime

theorem lives_at_most_three_witness :
    twoBulletsGame.playerLives ≤ 3 ∧
    (Update (fun q => q) idleInput quietRng twoBulletsGame).1.playerLives ≤ 3 :=
  ⟨by decide, lives_at_most_three (fun q => q) idleInput quietRng twoBulletsGame (by decide)⟩

/-- C5 (as stated) fails: `twoBulletsGame` has one life, within `[0, 3]`; both
enemy bullets hit the player in the same tick and `Update` leaves `playerLives = -1`. -/
theorem lives_counterexample :
    0 ≤ twoBulletsGame.playerLives ∧ twoBulletsGame.playerLives ≤ 3 ∧
    (Update (fun q => q) idleInput quietRng twoBulletsGame).1.playerLives = -1 ∧
    ¬ (0 ≤ (Update (fun q => q) idleInput quietRng twoBulletsGame).1.playerLives) := by
  have h : (Update (fun q => q) idleInput quietRng twoBulletsGame).1.playerLives = -1 := by
    simp [twoBulletsGame]
    norm_num
  refine ⟨by decide, by decide, h, ?_⟩
  rw [h]
  decide

end ConcreteC5

/-! ## Game over -/

/-- C6 (as amended): when `Update` gets as far as the game-over check (it is
not held by the language or start screen, not cut short by the story sequencer,
and the game is not paused), `playerLives` has reached 0 and Enter is not
pressed, the call leaves `isGameOver = true`. -/
theorem game_over_when_no_lives (sqrt : ℚ → ℚ) (inp : Input) (r : Rng) (g g1 : Game)
    (h : beforeGameOverCheck inp g = .next g1) (h0 : g.playerLives ≤ 0)
    (hE : inp.keyEnter = false) : (Update sqrt inp r g).1.isGameOver = true := by
  have hl : g1.playerLives ≤ 0 := by
    rw [(beforeGameOverCheck_next inp g g1 h).1.2.1]
    exact h0
  simp [Update, beforeGameplay, h, gameOverCheck, hl, hE]
  split_ifs <;> rfl

section ConcreteC6

attribute [local simp] Update beforeGameplay beforeGameOverCheck competitionGame startScreen
  languageScreen initialGame idleInput initializeGame storySequencer menuButton pauseButton
  gameOverCheck noLivesGame pauseClick

theorem game_over_when_no_lives_witness :
    beforeGameOverCheck idleInput noLivesGame = .next noLivesGame ∧
    noLivesGame.playerLives ≤ 0 ∧ idleInput.keyEnter = false ∧
    (Update (fun q => q) idleInput quietRng noLivesGame).1.isGameOver = true :=
  ⟨rfl, by decide, rfl,
    game_over_when_no_lives (fun q => q) idleInput quietRng noLivesGame noLivesGame rfl
      (by decide) rfl⟩

/-- C6 (as stated) fails.  `noLivesGame` has `playerLives = 0`.  With Enter held,
`Update` sets `isGameOver` and restarts the game at once, leaving
`isGameOver = false` and three lives.  With a click on the pause button,
`Update` pauses and returns before the game-over check, leaving
`isGameOver = false`. -/
theorem game_over_counterexample :
    noLivesGame.playerLives = 0 ∧
    (Update (fun q => q) { idleInput with keyEnter := true } quietRng noLivesGame).1.isGameOver
      = false ∧
    (Update (fun q => q) { idleInput with keyEnter := true } quietRng noLivesGame).1.playerLives
      = 3 ∧
    (Update (fun q => q) pauseClick quietRng noLivesGame).1.isGameOver = false ∧
    (Update (fun q => q) pauseClick quietRng noLivesGame).1.isPaused = true := by
  refine ⟨rfl, ?_, ?_, ?_, ?_⟩ <;> simp

end ConcreteC6

/-! ## Firing cadence -/

theorem beforeEnemies_playerBullets (inp : Input) (g : Game) :
    (beforeEnemies inp g).playerBullets =
      if (20 : Int) ∣ g.frameCount then
        (g.playerBullets ++
          [({ x := (movePlayer inp g).player.x + 15, y := (movePlayer inp g).player.y,
              speed := 5, active := true } : PlayerBullet)]).map movePlayerBullet
      else g.playerBullets.map movePlayerBullet := by
  have h15 : (movePlayer inp g).player.x + 17 - 2 = (movePlayer inp g).player.x + 15 := by ring
  simp only [beforeEnemies, updatePlayerBullets, shoot, shootCooldown, Int.dvd_iff_tmod_eq_zero]
  have hf : (movePlayer inp g).frameCount = g.frameCount := rfl
  have hb : (movePlayer inp g).playerBullets = g.playerBullets := rfl
  rw [hf, hb]
  split_ifs
  · simp [newPlayerBullet, shootSpeed, h15]
  · rfl

/-- After the bullet movement, the gameplay step only ever clears `active` flags
of player bullets. -/
theorem gameplay_playerBullets (sqrt : ℚ → ℚ) (inp : Input) (r : Rng) (g : Game) :
    List.Forall₂ Deactivated (beforeEnemies inp g).playerBullets
      (gameplay sqrt inp r g).1.playerBullets :=
  deactivated_trans (updateEnemiesLoop_deactivated g.enemies (beforeEnemies inp g))
    (gameplay_playerBullets_deactivated sqrt inp r g)

theorem run_frameCount (sqrt : ℚ → ℚ) (inp : Nat → Input) (s : Game × Rng) (n : Nat)
    (hgp : ∀ k < n, ∃ g1, beforeGameplay (inp k) (run sqrt inp k s).1 = .next g1) :
    (run sqrt inp n s).1.frameCount = s.1.frameCount + n := by
  induction n with
  | zero => simp [run]
  | succ n ih =>
    obtain ⟨g1, hg1⟩ := hgp n (Nat.lt_succ_self n)
    have ih' := ih (fun k hk => hgp k (Nat.lt_succ_of_lt hk))
    simp only [run, Update, hg1]
    rw [gameplay_frameCount, (beforeGameplay_next _ _ _ hg1).1.2.2.1, ih']
    push_cast
    ring

/-- C7: on every gameplay tick `frameCount` increases by exactly 1, and a new
player bullet is appended to `playerBullets` if and only if `frameCount` is a
multiple of 20 at the start of the tick; then exactly one is appended, created
at `x = player.x + 15` (the player being where the arrow keys and the clamp put
it), active, with speed 5.  In a run of `n` consecutive gameplay ticks that
starts with `frameCount = c`, the frame count ends at `c + n`, and tick `k`
(counted from 0) appends a bullet exactly when 20 divides `c + k`: with `c = 0`,
at ticks 0, 20, 40, ... and at no other tick.  The bullets are compared after
the tick: each has moved up by its speed if it was active, and may have lost its
`active` flag to a hit (`Deactivated`); `g1` is the state in which the gameplay
step of tick `k` starts, whose bullets are those before the call unless the story
sequencer has just cleared them for the next level. -/
theorem firing_cadence (sqrt : ℚ → ℚ) (inp : Nat → Input) (s : Game × Rng) (n : Nat)
    (hgp : ∀ k < n, ∃ g1, beforeGameplay (inp k) (run sqrt inp k s).1 = .next g1) :
    (run sqrt inp n s).1.frameCount = s.1.frameCount + n ∧
    ∀ k < n, ∀ g1, beforeGameplay (inp k) (run sqrt inp k s).1 = .next g1 →
      (run sqrt inp (k + 1) s).1.frameCount = (run sqrt inp k s).1.frameCount + 1 ∧
      (run sqrt inp k s).1.frameCount = s.1.frameCount + k ∧
      (g1.playerBullets = (run sqrt inp k s).1.playerBullets ∨ g1.playerBullets = []) ∧
      ((20 : Int) ∣ s.1.frameCount + k →
        (run sqrt inp (k + 1) s).1.playerBullets.length = g1.playerBullets.length + 1 ∧
        List.Forall₂ Deactivated
          ((g1.playerBullets ++
            [({ x := (movePlayer (inp k) g1).player.x + 15,
                y := (movePlayer (inp k) g1).player.y, speed := 5, active := true } :
              PlayerBullet)]).map movePlayerBullet)
          (run sqrt inp (k + 1) s).1.playerBullets) ∧
      (¬ (20 : Int) ∣ s.1.frameCount + k →
        (run sqrt inp (k + 1) s).1.playerBullets.length = g1.playerBullets.length ∧
        List.Forall₂ Deactivated (g1.playerBullets.map movePlayerBullet)
          (run sqrt inp (k + 1) s).1.playerBullets) := by
  refine ⟨run_frameCount sqrt inp s n hgp, ?_⟩
  intro k hk g1 hg1
  have hfc := run_frameCount sqrt inp s k (fun j hj => hgp j (lt_trans hj hk))
  have hg1fc : g1.frameCount = s.1.frameCount + k := by
    rw [(beforeGameplay_next _ _ _ hg1).1.2.2.1, hfc]
  have hb := gameplay_playerBullets sqrt (inp k) (run sqrt inp k s).2 g1
  rw [beforeEnemies_playerBullets, hg1fc] at hb
  refine ⟨?_, hfc, (beforeGameplay_next _ _ _ hg1).1.2.2.2.2.2.2.2, ?_, ?_⟩
  · simp only [run, Update, hg1]
    rw [gameplay_frameCount, (beforeGameplay_next _ _ _ hg1).1.2.2.1]
  · intro hd
    rw [if_pos hd] at hb
    simp only [run, Update, hg1]
    exact ⟨by rw [← hb.length_eq]; simp, hb⟩
  · intro hd
    rw [if_neg hd] at hb
    simp only [run, Update, hg1]
    exact ⟨by rw [← hb.length_eq]; simp, hb⟩

section ConcreteC7

attribute [local simp] run

theorem firing_cadence_witness :
    (∀ k < 1, ∃ g1, beforeGameplay idleInput
      (run (fun q => q) (fun _ => idleInput) k (competitionGame, quietRng)).1 = .next g1) ∧
    (run (fun q => q) (fun _ => idleInput) 1 (competitionGame, quietRng)).1.frameCount
      = competitionGame.frameCount + 1 := by
  have hgp : ∀ k < 1, ∃ g1, beforeGameplay idleInput
      (run (fun q => q) (fun _ => idleInput) k (competitionGame, quietRng)).1 = .next g1 := by
    intro k hk
    obtain rfl : k = 0 := by omega
    exact ⟨competitionGame, rfl⟩
  exact ⟨hgp, (firing_cadence (fun q => q) (fun _ => idleInput) (competitionGame, quietRng) 1
    hgp).1⟩

end ConcreteC7

/-! ## The power-up -/

@[simp] theorem updateEnemiesLoop_powerUp (es : List Enemy) (g : Game) :
    (updateEnemiesLoop es g).2.powerUp = g.powerUp := by
  rw [updateEnemiesLoop_frame]

@[simp] theorem updateEnemiesLoop_powerUpCounter (es : List Enemy) (g : Game) :
    (updateEnemiesLoop es g).2.powerUpCounter = g.powerUpCounter := by
  rw [updateEnemiesLoop_frame]

@[simp] theorem beforeEnemies_powerUp (inp : Input) (g : Game) :
    (beforeEnemies inp g).powerUp = g.powerUp := by
  simp only [beforeEnemies, updatePlayerBullets, movePlayer, shoot]; split <;> rfl

@[simp] theorem beforeEnemies_powerUpCounter (inp : Input) (g : Game) :
    (beforeEnemies inp g).powerUpCounter = g.powerUpCounter := by
  simp only [beforeEnemies, updatePlayerBullets, movePlayer, shoot]; split <;> rfl

@[simp] theorem spawnEnemy_powerUp (r : Rng) (g : Game) :
    (spawnEnemy r g).1.powerUp = g.powerUp := by
  unfold spawnEnemy; simp only []; split <;> rfl

@[simp] theorem spawnEnemy_powerUpCounter (r : Rng) (g : Game) :
    (spawnEnemy r g).1.powerUpCounter = g.powerUpCounter := by
  unfold spawnEnemy; simp only []; split <;> rfl

@[simp] theorem updateBoss_powerUp (sqrt : ℚ → ℚ) (r : Rng) (g : Game) :
    (updateBoss sqrt r g).1.game.powerUp = g.powerUp := by
  unfold updateBoss; simp only []; split_ifs <;> rfl

@[simp] theorem updateBoss_powerUpCounter (sqrt : ℚ → ℚ) (r : Rng) (g : Game) :
    (updateBoss sqrt r g).1.game.powerUpCounter = g.powerUpCounter := by
  unfold updateBoss; simp only []; split_ifs <;> rfl

theorem bossStep_powerUp (sqrt : ℚ → ℚ) (inp : Input) (r : Rng) (g : Game) :
    (bossStep sqrt inp r g).1.game.powerUp = g.powerUp ∧
    (bossStep sqrt inp r g).1.game.powerUpCounter = g.powerUpCounter := by
  simp [bossStep, gameplayToBoss, enemiesShoot, updateEnemyBullets, clampEnemies, updateEnemies]

theorem bossStep_player (sqrt : ℚ → ℚ) (inp : Input) (r : Rng) (g : Game) :
    (bossStep sqrt inp r g).1.game.player = (gameplay sqrt inp r g).1.player := by
  rw [gameplay_player, bossStep, updateBoss_player]

/-- The gameplay step, split at the boss block. -/
theorem gameplay_eq (sqrt : ℚ → ℚ) (inp : Input) (r : Rng) (g : Game) :
    gameplay sqrt inp r g =
      if reachesPowerUp sqrt inp r g then
        gameplayAfterBoss (bossStep sqrt inp r g).2 (bossStep sqrt inp r g).1.game
      else ((bossStep sqrt inp r g).1.game, (bossStep sqrt inp r g).2) := by
  unfold gameplay reachesPowerUp bossStep
  simp only []
  split <;> rename_i heq <;> simp [heq, Flow.game]

theorem respawnPowerUp_due (r : Rng) (g : Game) (h : powerUpRespawnTime ≤ g.powerUpCounter + 1) :
    (respawnPowerUp r g).1.powerUpCounter = 0 ∧
    (respawnPowerUp r g).1.powerUp.x = r.float64 0 * screenWidth ∧
    (respawnPowerUp r g).1.powerUp.y = r.float64 1 * screenHeight ∧
    (respawnPowerUp r g).1.powerUp.active = true := by
  simp [respawnPowerUp, h, Rng.nextFloat64]

theorem respawnPowerUp_not_due (r : Rng) (g : Game)
    (h : g.powerUpCounter + 1 < powerUpRespawnTime) :
    (respawnPowerUp r g).1.powerUpCounter = g.powerUpCounter + 1 ∧
    (respawnPowerUp r g).1.powerUp = g.powerUp := by
  simp [respawnPowerUp, not_le.mpr h]

@[simp] theorem movePowerUp_powerUpCounter (g : Game) :
    (movePowerUp g).powerUpCounter = g.powerUpCounter := by
  unfold movePowerUp; simp only []; split_ifs <;> rfl

theorem fallPowerUp_x (pu : PowerUp) : (fallPowerUp pu).x = pu.x := by
  unfold fallPowerUp; simp only []; split <;> rfl

theorem fallPowerUp_active (pu : PowerUp) : (fallPowerUp pu).active = pu.active := by
  unfold fallPowerUp; simp only []; split <;> rfl

theorem fallPowerUp_y (pu : PowerUp) (h : pu.active = true) : (fallPowerUp pu).y = pu.y + 1 := by
  simp [fallPowerUp, h]

/-- What the pickup and bottom-edge tests do to the power-up: it keeps its
place, never turns active, stays active when it neither touches the player nor
lies below `screenHeight - 32`, and is inactive when it lies below. -/
theorem movePowerUp_powerUp (g : Game) :
    (movePowerUp g).powerUp.x = g.powerUp.x ∧
    (movePowerUp g).powerUp.y = (fallPowerUp g.powerUp).y ∧
    ((movePowerUp g).powerUp.active = true → g.powerUp.active = true) ∧
    (g.powerUp.active = true → collision g.player (fallPowerUp g.powerUp) = false →
      (fallPowerUp g.powerUp).y ≤ screenHeight - 32 → (movePowerUp g).powerUp.active = true) ∧
    (screenHeight - 32 < (fallPowerUp g.powerUp).y → (movePowerUp g).powerUp.active = false) := by
  have hx := fallPowerUp_x g.powerUp
  have ha := fallPowerUp_active g.powerUp
  unfold movePowerUp
  simp only []
  refine ⟨?_, ?_, ?_, ?_, ?_⟩
  · split_ifs <;> simp [hx]
  · split_ifs <;> simp
  · split_ifs <;> simp_all
  · intro h1 h2 h3
    split_ifs <;> simp_all
    all_goals linarith
  · intro h1
    split_ifs <;> simp_all

theorem gameplayAfterBoss_due (r : Rng) (g : Game)
    (h : powerUpRespawnTime ≤ g.powerUpCounter + 1) :
    Respawned r (gameplayAfterBoss r g).1 := by
  obtain ⟨h1, h2, h3, h4⟩ := respawnPowerUp_due r g h
  obtain ⟨m1, m2, m3, m4, m5⟩ := movePowerUp_powerUp (respawnPowerUp r g).1
  have hy : (fallPowerUp (respawnPowerUp r g).1.powerUp).y = r.float64 1 * screenHeight + 1 := by
    rw [fallPowerUp_y _ h4, h3]
  have hx : (fallPowerUp (respawnPowerUp r g).1.powerUp).x = r.float64 0 * screenWidth := by
    rw [fallPowerUp_x, h2]
  simp only [gameplayAfterBoss, Respawned]
  rw [hy] at m2 m4 m5
  refine ⟨by simp [h1], by rw [m1, h2], m2, ?_, ?_⟩
  · intro hc hle
    apply m4 h4
    · rw [← hc]
      exact collision_congr _ _ _ _ (by simp) (by simp) (by simp [Positioned.getX, hx, m1, h2])
        (by simp [Positioned.getY, hy, m2])
    · rw [m2] at hle
      exact hle
  · intro hlt
    rw [m2] at hlt
    exact m5 hlt

theorem gameplayAfterBoss_not_due (r : Rng) (g : Game)
    (h : g.powerUpCounter + 1 < powerUpRespawnTime) :
    NotRespawned g (gameplayAfterBoss r g).1 := by
  obtain ⟨h1, h2⟩ := respawnPowerUp_not_due r g h
  obtain ⟨m1, -, m3, -, -⟩ := movePowerUp_powerUp (respawnPowerUp r g).1
  simp only [gameplayAfterBoss, NotRespawned]
  rw [h2] at m1 m3
  exact ⟨by simp [h1], m1, m3⟩

/-- One gameplay tick and the power-up. -/
theorem update_powerUp (sqrt : ℚ → ℚ) (inp : Input) (r : Rng) (g g1 : Game)
    (h : beforeGameplay inp g = .next g1) :
    (reachesPowerUp sqrt inp r g1 = false →
      (Update sqrt inp r g).1.powerUp = g.powerUp ∧
      (Update sqrt inp r g).1.powerUpCounter = g.powerUpCounter) ∧
    (reachesPowerUp sqrt inp r g1 = true → powerUpRespawnTime ≤ g.powerUpCounter + 1 →
      Respawned (bossStep sqrt inp r g1).2 (Update sqrt inp r g).1) ∧
    (reachesPowerUp sqrt inp r g1 = true → g.powerUpCounter + 1 < powerUpRespawnTime →
      NotRespawned g (Update sqrt inp r g).1) := by
  obtain ⟨-, -, -, hp, hc, -⟩ := (beforeGameplay_next inp g g1 h).1
  obtain ⟨bp, bc⟩ := bossStep_powerUp sqrt inp r g1
  simp only [Update, h, gameplay_eq]
  refine ⟨?_, ?_, ?_⟩
  · intro hr
    simp only [hr, Bool.false_eq_true, if_false]
    exact ⟨bp.trans hp, bc.trans hc⟩
  · intro hr hd
    simp only [hr, if_true]
    exact gameplayAfterBoss_due _ _ (by rw [bc, hc]; exact hd)
  · intro hr hd
    simp only [hr, if_true]
    have := gameplayAfterBoss_not_due (bossStep sqrt inp r g1).2 (bossStep sqrt inp r g1).1.game
      (by rw [bc, hc]; exact hd)
    simp only [NotRespawned] at this ⊢
    rw [bc, hc, bp, hp] at this
    exact this

theorem run_powerUpCounter (sqrt : ℚ → ℚ) (inp : Nat → Input) (s : Game × Rng) (n : Nat)
    (h0 : s.1.powerUpCounter = 0)
    (hall : ∀ k < n, ∃ g1, beforeGameplay (inp k) (run sqrt inp k s).1 = .next g1 ∧
      reachesPowerUp sqrt (inp k) (run sqrt inp k s).2 g1 = true) :
    (run sqrt inp n s).1.powerUpCounter = ((n % 1800 : Nat) : Int) := by
  induction n with
  | zero => simpa [run] using h0
  | succ n ih =>
    obtain ⟨g1, hg1, hr⟩ := hall n (Nat.lt_succ_self n)
    have ih' := ih (fun k hk => hall k (Nat.lt_succ_of_lt hk))
    obtain ⟨-, hdue, hnot⟩ := update_powerUp sqrt (inp n) (run sqrt inp n s).2
      (run sqrt inp n s).1 g1 hg1
    simp only [run]
    by_cases hd : powerUpRespawnTime ≤ (run sqrt inp n s).1.powerUpCounter + 1
    · rw [(hdue hr hd).1]
      simp only [powerUpRespawnTime] at hd
      omega
    · rw [(hnot hr (not_le.mp hd)).1]
      simp only [powerUpRespawnTime] at hd
      omega

/-- C8 (as amended): a gameplay tick that runs on to the power-up block adds one
to `powerUpCounter`; when the counter reaches 1800 it is reset to 0 and the
power-up is relocated to the next two random draws and set active, then falls
one step in the same tick, so that after `Update` it is active unless it touches
the player or lies below `screenHeight - 32` (`Respawned`); otherwise its `x` is
unchanged and it is not switched from inactive to active (`NotRespawned`).  A
gameplay tick cut short by the boss's defeat leaves the power-up and its counter
as they were.  Hence, with `powerUpCounter` starting at 0, in a run of gameplay
ticks that all reach the power-up block the respawn happens exactly at tick
1800, 3600, ... (tick `k` counted from 0 is the `k+1`-st) and at no other tick. -/
theorem power_up_respawn_cadence (sqrt : ℚ → ℚ) (inp : Nat → Input) (s : Game × Rng) (n : Nat)
    (hgp : ∀ k < n, ∃ g1, beforeGameplay (inp k) (run sqrt inp k s).1 = .next g1) :
    (∀ k < n, ∀ g1, beforeGameplay (inp k) (run sqrt inp k s).1 = .next g1 →
      (reachesPowerUp sqrt (inp k) (run sqrt inp k s).2 g1 = false →
        (run sqrt inp (k + 1) s).1.powerUp = (run sqrt inp k s).1.powerUp ∧
        (run sqrt inp (k + 1) s).1.powerUpCounter = (run sqrt inp k s).1.powerUpCounter) ∧
      (reachesPowerUp sqrt (inp k) (run sqrt inp k s).2 g1 = true →
        1800 ≤ (run sqrt inp k s).1.powerUpCounter + 1 →
        Respawned (bossStep sqrt (inp k) (run sqrt inp k s).2 g1).2
          (run sqrt inp (k + 1) s).1) ∧
      (reachesPowerUp sqrt (inp k) (run sqrt inp k s).2 g1 = true →
        (run sqrt inp k s).1.powerUpCounter + 1 < 1800 →
        NotRespawned (run sqrt inp k s).1 (run sqrt inp (k + 1) s).1)) ∧
    (s.1.powerUpCounter = 0 →
      (∀ k < n, ∀ g1, beforeGameplay (inp k) (run sqrt inp k s).1 = .next g1 →
        reachesPowerUp sqrt (inp k) (run sqrt inp k s).2 g1 = true) →
      (run sqrt inp n s).1.powerUpCounter = ((n % 1800 : Nat) : Int) ∧
      ∀ k < n, ∀ g1, beforeGameplay (inp k) (run sqrt inp k s).1 = .next g1 →
        (1800 ∣ k + 1 →
          Respawned (bossStep sqrt (inp k) (run sqrt inp k s).2 g1).2
            (run sqrt inp (k + 1) s).1) ∧
        (¬ 1800 ∣ k + 1 → NotRespawned (run sqrt inp k s).1 (run sqrt inp (k + 1) s).1)) := by
  have tick : ∀ k < n, ∀ g1, beforeGameplay (inp k) (run sqrt inp k s).1 = .next g1 →
      (reachesPowerUp sqrt (inp k) (run sqrt inp k s).2 g1 = false →
        (run sqrt inp (k + 1) s).1.powerUp = (run sqrt inp k s).1.powerUp ∧
        (run sqrt inp (k + 1) s).1.powerUpCounter = (run sqrt inp k s).1.powerUpCounter) ∧
      (reachesPowerUp sqrt (inp k) (run sqrt inp k s).2 g1 = true →
        1800 ≤ (run sqrt inp k s).1.powerUpCounter + 1 →
        Respawned (bossStep sqrt (inp k) (run sqrt inp k s).2 g1).2
          (run sqrt inp (k + 1) s).1) ∧
      (reachesPowerUp sqrt (inp k) (run sqrt inp k s).2 g1 = true →
        (run sqrt inp k s).1.powerUpCounter + 1 < 1800 →
        NotRespawned (run sqrt inp k s).1 (run sqrt inp (k + 1) s).1) := by
    intro k _ g1 hg1
    have := update_powerUp sqrt (inp k) (run sqrt inp k s).2 (run sqrt inp k s).1 g1 hg1
    simpa only [run, powerUpRespawnTime, show (30 : Int) * 60 = 1800 by norm_num] using this
  refine ⟨tick, ?_⟩
  intro h0 hall
  have hall' : ∀ m ≤ n, ∀ k < m, ∃ g1, beforeGameplay (inp k) (run sqrt inp k s).1 = .next g1 ∧
      reachesPowerUp sqrt (inp k) (run sqrt inp k s).2 g1 = true := by
    intro m hm k hk
    obtain ⟨g1, hg1⟩ := hgp k (lt_of_lt_of_le hk hm)
    exact ⟨g1, hg1, hall k (lt_of_lt_of_le hk hm) g1 hg1⟩
  refine ⟨run_powerUpCounter sqrt inp s n h0 (hall' n le_rfl), ?_⟩
  intro k hk g1 hg1
  have hc := run_powerUpCounter sqrt inp s k h0 (hall' k (le_of_lt hk))
  obtain ⟨-, hdue, hnot⟩ := tick k hk g1 hg1
  have hr := hall k hk g1 hg1
  constructor
  · intro hd
    apply hdue hr
    rw [hc]
    omega
  · intro hd
    apply hnot hr
    rw [hc]
    omega

section ConcreteC8

attribute [local simp] Update beforeGameplay beforeGameOverCheck competitionGame startScreen
  languageScreen initialGame idleInput initializeGame storySequencer storyVideo storyLevel3
  menuButton pauseButton
  gameOverCheck gameplay gameplayToBoss updateBoss gameplayAfterBoss beforeEnemies movePlayer
  shoot updatePlayerBullets updateEnemies updateEnemiesLoop updateEnemy moveEnemy hitPlayer
  hitPlayerBullets movePlayerBullet newPlayerBullet spawnEnemy clampEnemies clampEnemy
  updateEnemyBullets updateEnemyBulletsLoop updateEnemyBullet moveEnemyBullet enemiesShoot
  enemiesShootLoop enemyShoot respawnPowerUp movePowerUp fallPowerUp quietRng lowRng
  Rng.nextIntn bossMove bossShoot bossHitLoop bossStep reachesPowerUp Flow.game
  Rng.nextFloat64 clamp collision Positioned.getX Positioned.getY screenWidth screenHeight
  shootCooldown shootSpeed powerUpRespawnTime VideoScreenDuration LevelScreenDuration
  Int.tmod

theorem power_up_respawn_cadence_witness :
    (∀ k < 1, ∃ g1, beforeGameplay idleInput
      (run (fun q => q) (fun _ => idleInput) k (respawnDueGame, quietRng)).1 = .next g1) ∧
    (reachesPowerUp (fun q => q) idleInput quietRng respawnDueGame = true) ∧
    Respawned quietRng (run (fun q => q) (fun _ => idleInput) 1 (respawnDueGame, quietRng)).1 := by
  have hgp : ∀ k < 1, ∃ g1, beforeGameplay idleInput
      (run (fun q => q) (fun _ => idleInput) k (respawnDueGame, quietRng)).1 = .next g1 := by
    intro k hk
    obtain rfl : k = 0 := by omega
    exact ⟨respawnDueGame, rfl⟩
  have hr : reachesPowerUp (fun q => q) idleInput quietRng respawnDueGame = true := by
    simp [respawnDueGame]
  refine ⟨hgp, hr, ?_⟩
  have : Respawned (bossStep (fun q => q) idleInput quietRng respawnDueGame).2
      (run (fun q => q) (fun _ => idleInput) 1 (respawnDueGame, quietRng)).1 :=
    ((power_up_respawn_cadence (fun q => q) (fun _ => idleInput) (respawnDueGame, quietRng)
      1 hgp).1 0 (by decide) respawnDueGame rfl).2.1 hr (by decide)
  have hb : (bossStep (fun q => q) idleInput quietRng respawnDueGame).2 = quietRng := by
    simp [respawnDueGame]
  rw [hb] at this
  exact this

/-- C8 (as stated) fails.  `respawnDueGame` is on its 1800th tick, its power-up
inactive; the respawn draws `y = 19/20 * 480 = 456`, below
`screenHeight - 32 = 448`, so the same `Update` relocates the power-up and
leaves it inactive.  In `bossFightGame` with the counter at 1799, the tick ends
with the boss's defeat before the power-up block: the counter is still 1799 and
the power-up has not moved. -/
theorem power_up_respawn_counterexample :
    (beforeGameplay idleInput respawnDueGame = .next respawnDueGame ∧
      respawnDueGame.powerUpCounter + 1 = 1800 ∧
      respawnDueGame.powerUp.active = false ∧
      (Update (fun q => q) idleInput lowRng respawnDueGame).1.powerUpCounter = 0 ∧
      (Update (fun q => q) idleInput lowRng respawnDueGame).1.powerUp.x = 608 ∧
      (Update (fun q => q) idleInput lowRng respawnDueGame).1.powerUp.y = 457 ∧
      (Update (fun q => q) idleInput lowRng respawnDueGame).1.powerUp.active = false) ∧
    ((∃ g1, beforeGameplay idleInput { bossFightGame with powerUpCounter := 1799 } = .next g1) ∧
      (Update (fun q => q) idleInput quietRng
        { bossFightGame with powerUpCounter := 1799 }).1.powerUpCounter = 1799 ∧
      (Update (fun q => q) idleInput quietRng
        { bossFightGame with powerUpCounter := 1799 }).1.powerUp = bossFightGame.powerUp ∧
      (Update (fun q => q) idleInput quietRng
        { bossFightGame with powerUpCounter := 1799 }).1.frameCount
        = bossFightGame.frameCount + 1) := by
  refine ⟨⟨rfl, by decide, rfl, ?_, ?_, ?_, ?_⟩, ⟨⟨_, rfl⟩, ?_, ?_, ?_⟩⟩
  · simp [respawnDueGame]
    norm_num
  · simp [respawnDueGame]
    norm_num
  · simp [respawnDueGame]
    norm_num
  · simp [respawnDueGame]
    norm_num
  · simp [bossFightGame]
    norm_num
  · simp [bossFightGame]
    norm_num
  · simp [bossFightGame]
    norm_num

end ConcreteC8

/-! ## Boss defeat -/

theorem hitPlayerBullets_keeps (e : Enemy) (bs : List PlayerBullet) (s : Int) (j : Nat)
    (b : PlayerBullet) (hj : bs[j]? = some b) (hc : collision e b = false) :
    (hitPlayerBullets e bs s).2.1[j]? = some b := by
  induction bs generalizing e s j with
  | nil => simp at hj
  | cons b0 bs ih =>
    cases j with
    | zero =>
      simp only [List.getElem?_cons_zero, Option.some.injEq] at hj
      subst hj
      simp [hitPlayerBullets, hc]
    | succ j =>
      simp only [List.getElem?_cons_succ] at hj
      unfold hitPlayerBullets
      split_ifs
      · simpa using ih _ _ j hj (by simpa using hc)
      · simpa using ih _ _ j hj hc

theorem moveEnemy_active (e : Enemy) (h : e.active = false) : (moveEnemy e).active = false := by
  unfold moveEnemy
  simp only []
  split_ifs <;> simp [h]

theorem updateEnemy_keeps (e : Enemy) (g : Game) (j : Nat) (b : PlayerBullet)
    (hj : g.playerBullets[j]? = some b)
    (hc : e.active = true → collision (moveEnemy e) b = false) :
    (updateEnemy e g).2.playerBullets[j]? = some b := by
  unfold updateEnemy
  split_ifs with ha
  · simpa using hitPlayerBullets_keeps (moveEnemy e) g.playerBullets g.score j b hj (hc ha)
  · exact hj

/-- A bullet that no active enemy overlaps after moving comes out of the enemy
loop as it went in. -/
theorem updateEnemiesLoop_keeps (es : List Enemy) (g : Game) (j : Nat) (b : PlayerBullet)
    (hj : g.playerBullets[j]? = some b)
    (hc : ∀ e ∈ es, e.active = true → collision (moveEnemy e) b = false) :
    (updateEnemiesLoop es g).2.playerBullets[j]? = some b := by
  induction es generalizing g with
  | nil => exact hj
  | cons e es ih =>
    exact ih _ (updateEnemy_keeps e g j b hj (hc e (List.mem_cons_self _ _)))
      (fun e' he' => hc e' (List.mem_cons_of_mem _ he'))

/-- With at most one health point left, an active bullet on the boss ends the
loop through the `return nil` of the defeat, the boss inactive. -/
theorem bossHitLoop_defeat (boss : Boss) (bs : List PlayerBullet) (j : Nat) (b : PlayerBullet)
    (hh : boss.health ≤ 1) (hj : bs[j]? = some b) (hb : b.active = true)
    (hc : collision boss b = true) :
    (bossHitLoop boss bs).2.2 = true ∧ (bossHitLoop boss bs).1.active = false := by
  induction bs generalizing j with
  | nil => simp at hj
  | cons b0 bs ih =>
    unfold bossHitLoop
    simp only []
    split_ifs with h1 h2
    · exact ⟨rfl, rfl⟩
    · exact absurd (by omega : boss.health - 1 ≤ 0) h2
    · cases j with
      | zero =>
        simp only [List.getElem?_cons_zero, Option.some.injEq] at hj
        subst hj
        simp [hb, hc] at h1
      | succ j => exact ih j (by simpa using hj)

@[simp] theorem spawnEnemy_boss (r : Rng) (g : Game) : (spawnEnemy r g).1.boss = g.boss := by
  unfold spawnEnemy; simp only []; split <;> rfl

@[simp] theorem spawnEnemy_isBossActive (r : Rng) (g : Game) :
    (spawnEnemy r g).1.isBossActive = g.isBossActive := by
  unfold spawnEnemy; simp only []; split <;> rfl

@[simp] theorem beforeEnemies_boss (inp : Input) (g : Game) :
    (beforeEnemies inp g).boss = g.boss := by
  simp only [beforeEnemies, updatePlayerBullets, movePlayer, shoot]; split <;> rfl

@[simp] theorem beforeEnemies_isBossActive (inp : Input) (g : Game) :
    (beforeEnemies inp g).isBossActive = g.isBossActive := by
  simp only [beforeEnemies, updatePlayerBullets, movePlayer, shoot]; split <;> rfl

@[simp] theorem updateEnemiesLoop_boss (es : List Enemy) (g : Game) :
    (updateEnemiesLoop es g).2.boss = g.boss := by
  rw [updateEnemiesLoop_frame]

@[simp] theorem updateEnemiesLoop_isBossActive (es : List Enemy) (g : Game) :
    (updateEnemiesLoop es g).2.isBossActive = g.isBossActive := by
  rw [updateEnemiesLoop_frame]

theorem gameplayToBoss_boss (sqrt : ℚ → ℚ) (inp : Input) (r : Rng) (g : Game) :
    (gameplayToBoss sqrt inp r g).1.boss = g.boss ∧
    (gameplayToBoss sqrt inp r g).1.isBossActive = g.isBossActive := by
  simp [gameplayToBoss, enemiesShoot, updateEnemyBullets, clampEnemies, updateEnemies]

theorem bossShoot_keeps (sqrt : ℚ → ℚ) (p : Player) (b : Boss) :
    (bossShoot sqrt p b).1.health = b.health := by
  unfold bossShoot
  simp only []
  split_ifs <;> rfl

theorem bossMove_health (frameCount : Int) (r : Rng) (b : Boss) :
    (bossMove frameCount r b).1.health = b.health := by
  unfold bossMove
  simp only []
  split_ifs <;> rfl

theorem bossAtTest_health (sqrt : ℚ → ℚ) (inp : Input) (r : Rng) (g : Game) :
    (bossAtTest sqrt inp r g).health = g.boss.health := by
  unfold bossAtTest
  rw [bossShoot_keeps, bossMove_health, (gameplayToBoss_boss sqrt inp r g).1]

/-- C9 (as amended): on a gameplay tick with the boss fight on (`isBossActive`),
`boss.health = 1`, and an active player bullet that, once the bullet, the
enemies and the boss have moved in that tick, is overlapped by no active enemy
and overlaps the boss: after one `Update`, `boss.active = false`,
`isBossActive = false` and `gameCompleted = true`. -/
theorem boss_defeat_last_hit (sqrt : ℚ → ℚ) (inp : Input) (r : Rng) (g g1 : Game) (j : Nat)
    (b : PlayerBullet)
    (h : beforeGameplay inp g = .next g1)
    (hB : g1.isBossActive = true) (hH : g1.boss.health = 1)
    (hj : (beforeEnemies inp g1).playerBullets[j]? = some b) (hb : b.active = true)
    (hE : ∀ e ∈ g1.enemies, e.active = true → collision (moveEnemy e) b = false)
    (hc : collision (bossAtTest sqrt inp r g1) b = true) :
    (Update sqrt inp r g).1.boss.active = false ∧
    (Update sqrt inp r g).1.isBossActive = false ∧
    (Update sqrt inp r g).1.gameCompleted = true := by
  have hbul : (gameplayToBoss sqrt inp r g1).1.playerBullets[j]? = some b := by
    have := updateEnemiesLoop_keeps g1.enemies (beforeEnemies inp g1) j b hj hE
    simpa [gameplayToBoss, enemiesShoot, updateEnemyBullets, clampEnemies, updateEnemies]
      using this
  have hact : (gameplayToBoss sqrt inp r g1).1.isBossActive = true := by
    rw [(gameplayToBoss_boss sqrt inp r g1).2]
    exact hB
  obtain ⟨hd, ha⟩ := bossHitLoop_defeat (bossAtTest sqrt inp r g1)
    (gameplayToBoss sqrt inp r g1).1.playerBullets j b
    (by rw [bossAtTest_health, hH]) hbul hb hc
  unfold bossAtTest at hd ha
  simp only [Update, h, gameplay, updateBoss, hact, if_true, hd]
  exact ⟨ha, trivial, trivial⟩

section ConcreteC9

attribute [local simp] Update beforeGameplay beforeGameOverCheck competitionGame startScreen
  languageScreen initialGame idleInput initializeGame storySequencer storyVideo storyLevel3
  menuButton pauseButton
  gameOverCheck gameplay gameplayToBoss updateBoss gameplayAfterBoss beforeEnemies movePlayer
  shoot updatePlayerBullets updateEnemies updateEnemiesLoop updateEnemy moveEnemy hitPlayer
  hitPlayerBullets movePlayerBullet newPlayerBullet spawnEnemy clampEnemies clampEnemy
  updateEnemyBullets updateEnemyBulletsLoop updateEnemyBullet moveEnemyBullet enemiesShoot
  enemiesShootLoop enemyShoot respawnPowerUp movePowerUp fallPowerUp quietRng
  Rng.nextIntn bossMove bossShoot bossHitLoop bossStep bossAtTest Flow.game
  Rng.nextFloat64 clamp collision Positioned.getX Positioned.getY screenWidth screenHeight
  shootCooldown shootSpeed powerUpRespawnTime VideoScreenDuration LevelScreenDuration
  Int.tmod bossFightGame

theorem boss_defeat_last_hit_witness :
    bossFightGame.isBossActive = true ∧ bossFightGame.boss.health = 1 ∧
    (Update (fun q => q) idleInput quietRng bossFightGame).1.boss.active = false ∧
    (Update (fun q => q) idleInput quietRng bossFightGame).1.isBossActive = false ∧
    (Update (fun q => q) idleInput quietRng bossFightGame).1.gameCompleted = true := by
  refine ⟨rfl, rfl, boss_defeat_last_hit (fun q => q) idleInput quietRng bossFightGame
    { bossFightGame with showVideoScreen := true, videoScreenCounter := 180 } 0
    { x := 100, y := 105, speed := 5, active := true } rfl rfl rfl ?_ rfl ?_ ?_⟩
  · simp
    norm_num
  · simp
  · simp
    norm_num

/-- C9 (as stated) fails.  In `bossGrazedGame` the boss is active with one
health point and an active bullet overlaps it, but the bullet moves up and the
boss down before the test, and the boss survives.  In `bossShieldedGame` the
bullet overlaps the boss before and after the moves, but the enemy loop runs
first and spends the bullet on the enemy: the boss survives again. -/
theorem boss_defeat_counterexample :
    (bossGrazedGame.isBossActive = true ∧ bossGrazedGame.boss.active = true ∧
      bossGrazedGame.boss.health = 1 ∧
      bossGrazedGame.playerBullets.map PlayerBullet.active = [true] ∧
      (∀ b ∈ bossGrazedGame.playerBullets, collision bossGrazedGame.boss b = true) ∧
      (∃ g1, beforeGameplay idleInput bossGrazedGame = .next g1) ∧
      (Update (fun q => q) idleInput quietRng bossGrazedGame).1.boss.active = true ∧
      (Update (fun q => q) idleInput quietRng bossGrazedGame).1.isBossActive = true ∧
      (Update (fun q => q) idleInput quietRng bossGrazedGame).1.gameCompleted = false) ∧
    (bossShieldedGame.isBossActive = true ∧ bossShieldedGame.boss.active = true ∧
      bossShieldedGame.boss.health = 1 ∧
      bossShieldedGame.playerBullets.map PlayerBullet.active = [true] ∧
      (∀ b ∈ bossShieldedGame.playerBullets,
        collision bossShieldedGame.boss b = true ∧
        collision (bossAtTest (fun q => q) idleInput quietRng bossShieldedGame)
          (movePlayerBullet b) = true) ∧
      (∃ g1, beforeGameplay idleInput bossShieldedGame = .next g1) ∧
      (Update (fun q => q) idleInput quietRng bossShieldedGame).1.boss.active = true ∧
      (Update (fun q => q) idleInput quietRng bossShieldedGame).1.isBossActive = true ∧
      (Update (fun q => q) idleInput quietRng bossShieldedGame).1.gameCompleted = false) := by
  refine ⟨⟨rfl, rfl, rfl, rfl, ?_, ⟨_, rfl⟩, ?_, ?_, ?_⟩,
    ⟨rfl, rfl, rfl, rfl, ?_, ⟨_, rfl⟩, ?_, ?_, ?_⟩⟩
  all_goals simp [bossGrazedGame, bossShieldedGame]
  all_goals norm_num

end ConcreteC9

/-! ## Level 1 completed -/

theorem gameplay_levelCompletedScreen (sqrt : ℚ → ℚ) (inp : Input) (r : Rng) (g : Game) :
    levelCompletedScreen (gameplay sqrt inp r g).1 = levelCompletedScreen g := by
  have hs : ∀ r g, levelCompletedScreen (spawnEnemy r g).1 = levelCompletedScreen g := by
    intro r g
    unfold spawnEnemy
    simp only []
    split <;> rfl
  have hb : levelCompletedScreen (beforeEnemies inp g) = levelCompletedScreen g := by
    simp only [beforeEnemies, updatePlayerBullets, movePlayer, shoot]
    split <;> rfl
  have he : ∀ es g, levelCompletedScreen (updateEnemiesLoop es g).2 = levelCompletedScreen g := by
    intro es g
    rw [updateEnemiesLoop_frame]
    rfl
  rw [gameplay_field levelCompletedScreen sqrt inp r g]
  · simp only [gameplayToBoss, enemiesShoot, updateEnemyBullets, clampEnemies, updateEnemies]
    have := hs r { (updateEnemiesLoop (beforeEnemies inp g).enemies (beforeEnemies inp g)).2 with
      enemies := (updateEnemiesLoop (beforeEnemies inp g).enemies (beforeEnemies inp g)).1 }
    simp only [levelCompletedScreen] at this hb he ⊢
    rw [this, ← hb]
    exact he _ _
  · intro r g
    unfold updateBoss
    simp only []
    split_ifs <;> rfl
  · intro r g
    unfold gameplayAfterBoss respawnPowerUp movePowerUp
    simp only []
    split_ifs <;> rfl

/-- Past the story sequencer, `Update` does not write the "level completed" screen. -/
theorem update_after_sequencer (sqrt : ℚ → ℚ) (inp : Input) (r : Rng) (g g1 : Game)
    (hl : g.languageScreenActive = false) (hs : g.startScreenActive = false)
    (hq : storySequencer inp g = .next g1) :
    levelCompletedScreen (Update sqrt inp r g).1 = levelCompletedScreen g1 := by
  have hb : levelCompletedScreen (menuButton inp (pauseButton inp g1))
      = levelCompletedScreen g1 := by
    unfold menuButton pauseButton
    simp only []
    split_ifs <;> rfl
  simp only [Update, beforeGameplay, beforeGameOverCheck, hl, hs, hq, Bool.false_eq_true,
    if_false]
  split_ifs
  · exact hb
  · simp only [gameOverCheck]
    split_ifs
    · exact hb
    · exact hb
    · exact hb
    · simp only []
      rw [gameplay_levelCompletedScreen]
      exact hb
    · exact hb
    · exact hb
    · exact hb
    · simp only []
      rw [gameplay_levelCompletedScreen]
      exact hb

/-- C10 (as amended): in Story mode at Chapter1/Level1, past the language and
start screens, with `score = 1`, `showLevelScreen = false`,
`levelScreenShown = true` and `showLevelCompleted = false`, and with the video
player not reporting that it is playing (so that the video step does not end the
call), one `Update` sets `showLevelCompleted = true` with
`levelCompletedScreenCounter = 180`. -/
theorem level_one_completed (sqrt : ℚ → ℚ) (inp : Input) (r : Rng) (g : Game)
    (hl : g.languageScreenActive = false) (hs : g.startScreenActive = false)
    (hm : g.gameMode = .Story) (hc : g.storyChapter = .Chapter1)
    (hlev : g.storyLevel = .Level1) (hscore : g.score = 1)
    (h1 : g.showLevelScreen = false) (h2 : g.levelScreenShown = true)
    (h3 : g.showLevelCompleted = false)
    (hv : (inp.videoIsPlaying && inp.videoIsPlayingAgain) = false) :
    (Update sqrt inp r g).1.showLevelCompleted = true ∧
    (Update sqrt inp r g).1.levelCompletedScreenCounter = 180 := by
  have hq : ∃ g1, storySequencer inp g = .next g1 ∧ levelCompletedScreen g1 = (true, 180) := by
    unfold storySequencer storyVideo
    simp only [hm, if_true]
    cases hv1 : inp.videoIsPlaying <;> cases hv2 : inp.videoIsPlayingAgain <;>
      simp [hv1, hv2] at hv ⊢ <;>
      simp [hc, hlev, storyLevel1, hscore, h1, h2, h3, levelCompletedScreen,
        LevelScreenDuration]
  obtain ⟨g1, hg1, hf⟩ := hq
  have := update_after_sequencer sqrt inp r g g1 hl hs hg1
  rw [hf] at this
  simp only [levelCompletedScreen, Prod.mk.injEq] at this
  exact this

section ConcreteC10

attribute [local simp] Update beforeGameplay beforeGameOverCheck competitionGame startScreen
  languageScreen initialGame idleInput initializeGame storySequencer storyVideo storyLevel1
  videoInput levelOneWonGame VideoScreenDuration LevelScreenDuration

theorem level_one_completed_witness :
    levelOneWonGame.gameMode = .Story ∧ levelOneWonGame.storyLevel = .Level1 ∧
    levelOneWonGame.score = 1 ∧
    (Update (fun q => q) idleInput quietRng levelOneWonGame).1.showLevelCompleted = true ∧
    (Update (fun q => q) idleInput quietRng levelOneWonGame).1.levelCompletedScreenCounter
      = 180 :=
  ⟨rfl, rfl, rfl, level_one_completed (fun q => q) idleInput quietRng levelOneWonGame rfl rfl
    rfl rfl rfl rfl rfl rfl rfl rfl⟩

/-- C10 (as stated) fails: `levelOneWonGame` is in Story mode at Level 1 with
`score = 1`, `showLevelScreen = false`, `levelScreenShown = true` and
`showLevelCompleted = false`; while the video player reports that it is playing,
`Update` returns from the video step and `showLevelCompleted` stays `false`. -/
theorem level_one_completed_counterexample :
    levelOneWonGame.languageScreenActive = false ∧ levelOneWonGame.startScreenActive = false ∧
    levelOneWonGame.gameMode = .Story ∧ levelOneWonGame.storyChapter = .Chapter1 ∧
    levelOneWonGame.storyLevel = .Level1 ∧ levelOneWonGame.score = 1 ∧
    levelOneWonGame.showLevelScreen = false ∧ levelOneWonGame.levelScreenShown = true ∧
    levelOneWonGame.showLevelCompleted = false ∧
    (Update (fun q => q) videoInput quietRng levelOneWonGame).1.showLevelCompleted = false := by
  refine ⟨rfl, rfl, rfl, rfl, rfl, rfl, rfl, rfl, rfl, ?_⟩
  simp

end ConcreteC10

/-! ## Paused -/

/-- C13: while paused, gameplay logic is skipped.  Past the language and start
screens, in Competition mode with `isPaused = true` and the left mouse button
not pressed, `Update` returns the game state as it was: the player, all entity
sequences, `score`, `playerLives`, `isGameOver`, `frameCount`, `powerUp`,
`powerUpCounter`, `bgOffsetY` and `boss` (and every other field) are unchanged,
and no random number is drawn. -/
theorem paused_update_changes_nothing (sqrt : ℚ → ℚ) (inp : Input) (r : Rng) (g : Game)
    (hl : g.languageScreenActive = false) (hs : g.startScreenActive = false)
    (hm : g.gameMode = .Competition) (hp : g.isPaused = true)
    (hb : inp.mouseButtonLeft = false) :
    Update sqrt inp r g = (g, r) ∧
    (Update sqrt inp r g).1.player = g.player ∧
    (Update sqrt inp r g).1.enemies = g.enemies ∧
    (Update sqrt inp r g).1.playerBullets = g.playerBullets ∧
    (Update sqrt inp r g).1.enemyBullets = g.enemyBullets ∧
    (Update sqrt inp r g).1.score = g.score ∧
    (Update sqrt inp r g).1.playerLives = g.playerLives ∧
    (Update sqrt inp r g).1.isGameOver = g.isGameOver ∧
    (Update sqrt inp r g).1.frameCount = g.frameCount ∧
    (Update sqrt inp r g).1.powerUp = g.powerUp ∧
    (Update sqrt inp r g).1.powerUpCounter = g.powerUpCounter ∧
    (Update sqrt inp r g).1.bgOffsetY = g.bgOffsetY ∧
    (Update sqrt inp r g).1.boss = g.boss := by
  have h : Update sqrt inp r g = (g, r) := by
    simp [Update, beforeGameplay, beforeGameOverCheck, hl, hs, storySequencer, hm, pauseButton,
      menuButton, hb, hp]
  rw [h]
  exact ⟨rfl, rfl, rfl, rfl, rfl, rfl, rfl, rfl, rfl, rfl, rfl, rfl, rfl⟩

theorem paused_update_changes_nothing_witness :
    Update (fun q => q) idleInput quietRng { singleHitGame with isPaused := true }
      = ({ singleHitGame with isPaused := true }, quietRng) :=
  (paused_update_changes_nothing (fun q => q) idleInput quietRng
    { singleHitGame with isPaused := true } rfl rfl rfl rfl rfl).1

/-! ## After the boss's defeat, and the Level 1 screen -/

theorem gameplay_levelScreen (sqrt : ℚ → ℚ) (inp : Input) (r : Rng) (g : Game) :
    levelScreen (gameplay sqrt inp r g).1 = levelScreen g := by
  have hs : ∀ r g, levelScreen (spawnEnemy r g).1 = levelScreen g := by
    intro r g
    unfold spawnEnemy
    simp only []
    split <;> rfl
  have hb : levelScreen (beforeEnemies inp g) = levelScreen g := by
    simp only [beforeEnemies, updatePlayerBullets, movePlayer, shoot]
    split <;> rfl
  have he : ∀ es g, levelScreen (updateEnemiesLoop es g).2 = levelScreen g := by
    intro es g
    rw [updateEnemiesLoop_frame]
    rfl
  rw [gameplay_field levelScreen sqrt inp r g]
  · simp only [gameplayToBoss, enemiesShoot, updateEnemyBullets, clampEnemies, updateEnemies]
    have := hs r { (updateEnemiesLoop (beforeEnemies inp g).enemies (beforeEnemies inp g)).2 with
      enemies := (updateEnemiesLoop (beforeEnemies inp g).enemies (beforeEnemies inp g)).1 }
    simp only [levelScreen] at this hb he ⊢
    rw [this, ← hb]
    exact he _ _
  · intro r g
    unfold updateBoss
    simp only []
    split_ifs <;> rfl
  · intro r g
    unfold gameplayAfterBoss respawnPowerUp movePowerUp
    simp only []
    split_ifs <;> rfl

/-- Past the story sequencer, `Update` does not write the "Level N" screen. -/
theorem update_after_sequencer_levelScreen (sqrt : ℚ → ℚ) (inp : Input) (r : Rng)
    (g g1 : Game) (hl : g.languageScreenActive = false) (hs : g.startScreenActive = false)
    (hq : storySequencer inp g = .next g1) :
    levelScreen (Update sqrt inp r g).1 = levelScreen g1 := by
  have hb : levelScreen (menuButton inp (pauseButton inp g1)) = levelScreen g1 := by
    unfold menuButton pauseButton
    simp only []
    split_ifs <;> rfl
  simp only [Update, beforeGameplay, beforeGameOverCheck, hl, hs, hq, Bool.false_eq_true,
    if_false]
  split_ifs
  · exact hb
  · simp only [gameOverCheck]
    split_ifs
    · exact hb
    · exact hb
    · exact hb
    · simp only []
      rw [gameplay_levelScreen]
      exact hb
    · exact hb
    · exact hb
    · exact hb
    · simp only []
      rw [gameplay_levelScreen]
      exact hb

/-- In Level 1, a call of `Update` in which the video source reports "not
playing" never opens the "Level 1" screen: the video step has just set
`showVideoScreen`, which closes the guard `!showVideoScreen && !levelScreenShown`. -/
theorem level_one_screen_guard_closed (sqrt : ℚ → ℚ) (inp : Input) (r : Rng) (g : Game)
    (hl : g.languageScreenActive = false) (hs : g.startScreenActive = false)
    (hm : g.gameMode = .Story) (hlev : g.storyLevel = .Level1)
    (hv : inp.videoIsPlaying = false) (h1 : g.showLevelScreen = false) :
    levelScreen (Update sqrt inp r g).1 = levelScreen g := by
  have hq : ∃ g1, storySequencer inp g = .next g1 ∧ levelScreen g1 = levelScreen g := by
    unfold storySequencer storyVideo
    simp only [hm, if_true, hv, Bool.not_false]
    cases hc : g.storyChapter
    simp only [hlev, storyLevel1, h1, Bool.not_true, Bool.false_and, Bool.false_eq_true,
      if_false]
    split_ifs <;> exact ⟨_, rfl, by simp [levelScreen, h1, initializeLevel]⟩
  obtain ⟨g1, hg1, hf⟩ := hq
  rw [update_after_sequencer_levelScreen sqrt inp r g g1 hl hs hg1, hf]

section ConcreteC11

attribute [local simp] Update beforeGameplay beforeGameOverCheck competitionGame startScreen
  languageScreen initialGame idleInput leftInput initializeGame initializeLevel storySequencer
  storyVideo storyLevel1 storyLevel3 menuButton pauseButton
  gameOverCheck gameplay gameplayToBoss updateBoss gameplayAfterBoss beforeEnemies movePlayer
  shoot updatePlayerBullets updateEnemies updateEnemiesLoop updateEnemy moveEnemy hitPlayer
  hitPlayerBullets movePlayerBullet newPlayerBullet spawnEnemy clampEnemies clampEnemy
  updateEnemyBullets updateEnemyBulletsLoop updateEnemyBullet moveEnemyBullet enemiesShoot
  enemiesShootLoop enemyShoot respawnPowerUp movePowerUp fallPowerUp quietRng
  Rng.nextIntn bossMove bossShoot bossHitLoop Flow.game
  Rng.nextFloat64 clamp collision Positioned.getX Positioned.getY screenWidth screenHeight
  shootCooldown shootSpeed powerUpRespawnTime VideoScreenDuration LevelScreenDuration
  Int.tmod bossFightGame completedGame storyGame

/-- C11, the code at the failing input: `completedGame` is the Story game right
after the boss's defeat, with `gameCompleted = true`.  The next `Update`, with the
left arrow held, runs the gameplay step all the same: the player moves 4 to the
left, `frameCount` and `powerUpCounter` go up by one. -/
theorem game_completed_still_simulates :
    completedGame.gameMode = .Story ∧ completedGame.gameCompleted = true ∧
    completedGame.player.x = 320 ∧ completedGame.frameCount = 2 ∧
    completedGame.powerUpCounter = 0 ∧
    (Update (fun q => q) leftInput quietRng completedGame).1.player.x = 316 ∧
    (Update (fun q => q) leftInput quietRng completedGame).1.frameCount = 3 ∧
    (Update (fun q => q) leftInput quietRng completedGame).1.powerUpCounter = 1 := by
  have hc : completedGame =
      { bossFightGame with
        frameCount := 2
        showVideoScreen := true
        videoScreenCounter := 180
        isBossActive := false
        gameCompleted := true
        boss := { x := 102, y := 102, speedX := 2, speedY := 2, active := false, health := 0,
                  shotCooldown := 60, shotCounter := 1 }
        playerBullets := [{ x := 100, y := 105, speed := 5, active := false }] } := by
    simp
    norm_num
  rw [hc]
  refine ⟨rfl, rfl, ?_, rfl, rfl, ?_, ?_, ?_⟩
  all_goals simp
  all_goals norm_num

/-- C12, the code at the failing input: `storyGame` is in Story mode at Level 1
with `levelScreenShown = false`, and the video source reports "not playing".
`Update` restarts the video (`showVideoScreen = true`), which closes the guard of
the "Level 1" screen; it shows no level screen and runs the gameplay step. -/
theorem level_one_screen_never_shown :
    storyGame.gameMode = .Story ∧ storyGame.storyLevel = .Level1 ∧
    storyGame.levelScreenShown = false ∧ storyGame.showVideoScreen = false ∧
    idleInput.videoIsPlaying = false ∧
    (Update (fun q => q) idleInput quietRng storyGame).1.showVideoScreen = true ∧
    (Update (fun q => q) idleInput quietRng storyGame).1.showLevelScreen = false ∧
    (Update (fun q => q) idleInput quietRng storyGame).1.levelScreenCounter = 0 ∧
    (Update (fun q => q) idleInput quietRng storyGame).1.levelScreenShown = false ∧
    (Update (fun q => q) idleInput quietRng storyGame).1.frameCount
      = storyGame.frameCount + 1 := by
  refine ⟨rfl, rfl, rfl, rfl, rfl, ?_, ?_, ?_, ?_, ?_⟩
  all_goals simp

end ConcreteC11

/-! ## Picking up the power-up -/

theorem movePowerUp_pickup (g : Game) (ha : g.powerUp.active = true) :
    (collision g.player (fallPowerUp g.powerUp) = true → g.playerLives < 3 →
      (movePowerUp g).playerLives = g.playerLives + 1 ∧
      (movePowerUp g).powerUp.active = false) ∧
    (collision g.player (fallPowerUp g.powerUp) = true → g.playerLives = 3 →
      (movePowerUp g).playerLives = g.playerLives ∧
      (movePowerUp g).powerUp.active = false) ∧
    (screenHeight - 32 < (fallPowerUp g.powerUp).y →
      (movePowerUp g).powerUp.active = false ∧
      (collision g.player (fallPowerUp g.powerUp) = false →
        (movePowerUp g).playerLives = g.playerLives)) := by
  have hf := fallPowerUp_active g.powerUp
  rw [ha] at hf
  refine ⟨?_, ?_, ?_⟩
  · intro hc hl
    unfold movePowerUp
    simp only []
    split_ifs <;> simp_all
  · intro hc hl
    unfold movePowerUp
    simp only []
    split_ifs <;> simp_all
  · intro hy
    refine ⟨(movePowerUp_powerUp g).2.2.2.2 hy, ?_⟩
    intro hc
    exact movePowerUp_playerLives_none g (fun _ => hc)

theorem update_eq_movePowerUp (sqrt : ℚ → ℚ) (inp : Input) (r : Rng) (g g1 : Game)
    (h : beforeGameplay inp g = .next g1) (hr : reachesPowerUp sqrt inp r g1 = true) :
    (Update sqrt inp r g).1.playerLives = (movePowerUp (atPowerUp sqrt inp r g1)).playerLives ∧
    (Update sqrt inp r g).1.powerUp = (movePowerUp (atPowerUp sqrt inp r g1)).powerUp ∧
    (Update sqrt inp r g).1.player = (atPowerUp sqrt inp r g1).player := by
  simp only [Update, h, gameplay_eq, hr, if_true, gameplayAfterBoss, atPowerUp,
    movePowerUp_player]
  exact ⟨trivial, trivial, trivial⟩

/-- C14 (as amended): on a gameplay tick that runs on to the power-up block (it
is not cut short by the boss's defeat), with the power-up active when its fall is
reached (after the respawn block of that tick), the lives and the player taken
as that block finds them: the power-up falls by 1; if it then overlaps the
player and `playerLives < 3`, `playerLives` is incremented by exactly 1 and the
power-up is inactive after `Update`; if it overlaps the player while
`playerLives == 3`, the power-up is inactive after `Update` and `playerLives` is
unchanged; and if it has fallen past the bottom edge (`y > screenHeight - 32`)
it is inactive after `Update`, and `playerLives` is unchanged unless it was
picked up. -/
theorem power_up_pickup (sqrt : ℚ → ℚ) (inp : Input) (r : Rng) (g g1 : Game)
    (h : beforeGameplay inp g = .next g1) (hr : reachesPowerUp sqrt inp r g1 = true)
    (ha : (atPowerUp sqrt inp r g1).powerUp.active = true) :
    (powerUpAtPickup sqrt inp r g1).x = (atPowerUp sqrt inp r g1).powerUp.x ∧
    (powerUpAtPickup sqrt inp r g1).y = (atPowerUp sqrt inp r g1).powerUp.y + 1 ∧
    (Update sqrt inp r g).1.player = (atPowerUp sqrt inp r g1).player ∧
    (collision (atPowerUp sqrt inp r g1).player (powerUpAtPickup sqrt inp r g1) = true →
      (atPowerUp sqrt inp r g1).playerLives < 3 →
      (Update sqrt inp r g).1.playerLives = (atPowerUp sqrt inp r g1).playerLives + 1 ∧
      (Update sqrt inp r g).1.powerUp.active = false) ∧
    (collision (atPowerUp sqrt inp r g1).player (powerUpAtPickup sqrt inp r g1) = true →
      (atPowerUp sqrt inp r g1).playerLives = 3 →
      (Update sqrt inp r g).1.playerLives = (atPowerUp sqrt inp r g1).playerLives ∧
      (Update sqrt inp r g).1.powerUp.active = false) ∧
    (screenHeight - 32 < (powerUpAtPickup sqrt inp r g1).y →
      (Update sqrt inp r g).1.powerUp.active = false ∧
      (collision (atPowerUp sqrt inp r g1).player (powerUpAtPickup sqrt inp r g1) = false →
        (Update sqrt inp r g).1.playerLives = (atPowerUp sqrt inp r g1).playerLives)) := by
  obtain ⟨hl, hp, hpl⟩ := update_eq_movePowerUp sqrt inp r g g1 h hr
  obtain ⟨m1, m2, m3⟩ := movePowerUp_pickup (atPowerUp sqrt inp r g1) ha
  have hpu : powerUpAtPickup sqrt inp r g1 = fallPowerUp (atPowerUp sqrt inp r g1).powerUp := rfl
  rw [hl, hp, hpu]
  exact ⟨fallPowerUp_x _, fallPowerUp_y _ ha, hpl, m1, m2, m3⟩

section ConcreteC14

attribute [local simp] Update beforeGameplay beforeGameOverCheck competitionGame startScreen
  languageScreen initialGame idleInput initializeGame storySequencer storyVideo storyLevel3
  menuButton pauseButton
  gameOverCheck gameplay gameplayToBoss updateBoss gameplayAfterBoss beforeEnemies movePlayer
  shoot updatePlayerBullets updateEnemies updateEnemiesLoop updateEnemy moveEnemy hitPlayer
  hitPlayerBullets movePlayerBullet newPlayerBullet spawnEnemy clampEnemies clampEnemy
  updateEnemyBullets updateEnemyBulletsLoop updateEnemyBullet moveEnemyBullet enemiesShoot
  enemiesShootLoop enemyShoot respawnPowerUp movePowerUp fallPowerUp quietRng
  Rng.nextIntn bossMove bossShoot bossHitLoop bossStep reachesPowerUp atPowerUp
  powerUpAtPickup Flow.game
  Rng.nextFloat64 clamp collision Positioned.getX Positioned.getY screenWidth screenHeight
  shootCooldown shootSpeed powerUpRespawnTime VideoScreenDuration LevelScreenDuration
  Int.tmod bossFightGame

theorem power_up_pickup_witness :
    beforeGameplay idleInput pickupGame = .next pickupGame ∧
    pickupGame.playerLives = 2 ∧
    (Update (fun q => q) idleInput quietRng pickupGame).1.playerLives = 3 ∧
    (Update (fun q => q) idleInput quietRng pickupGame).1.powerUp.active = false := by
  have hr : reachesPowerUp (fun q => q) idleInput quietRng pickupGame = true := by
    simp [pickupGame]
  have ha : (atPowerUp (fun q => q) idleInput quietRng pickupGame).powerUp.active = true := by
    simp [pickupGame]
  have hc : collision (atPowerUp (fun q => q) idleInput quietRng pickupGame).player
      (powerUpAtPickup (fun q => q) idleInput quietRng pickupGame) = true := by
    simp [pickupGame]
    norm_num
  have hl : (atPowerUp (fun q => q) idleInput quietRng pickupGame).playerLives = 2 := by
    simp [pickupGame]
  have := (power_up_pickup (fun q => q) idleInput quietRng pickupGame pickupGame rfl hr
    ha).2.2.2.1 hc (by rw [hl]; decide)
  rw [hl] at this
  exact ⟨rfl, rfl, this⟩

/-- C14 (as stated) fails.  In `bossFightPickupGame` the power-up is active and
overlaps the player, before and after a fall by 1, and `playerLives = 2 < 3`; the
tick is a gameplay tick, but it ends with the boss's defeat before the power-up
block: after `Update` the power-up is still active where it was and
`playerLives` is still 2. -/
theorem power_up_pickup_counterexample :
    (∃ g1, beforeGameplay idleInput bossFightPickupGame = .next g1) ∧
    bossFightPickupGame.powerUp.active = true ∧
    collision bossFightPickupGame.player bossFightPickupGame.powerUp = true ∧
    collision bossFightPickupGame.player (fallPowerUp bossFightPickupGame.powerUp) = true ∧
    bossFightPickupGame.playerLives = 2 ∧
    (Update (fun q => q) idleInput quietRng bossFightPickupGame).1.playerLives = 2 ∧
    (Update (fun q => q) idleInput quietRng bossFightPickupGame).1.powerUp.active = true ∧
    (Update (fun q => q) idleInput quietRng bossFightPickupGame).1.powerUp.y = 429 ∧
    (Update (fun q => q) idleInput quietRng bossFightPickupGame).1.frameCount
      = bossFightPickupGame.frameCount + 1 := by
  refine ⟨⟨_, rfl⟩, rfl, ?_, ?_, rfl, ?_, ?_, ?_, ?_⟩
  all_goals simp [bossFightPickupGame]
  all_goals norm_num

end ConcreteC14

/-! ## Each enemy fires at most once -/

/-- One iteration of the shooting loop: an enemy that has shot appends nothing
and stays as it is; at most one bullet is appended; an appended bullet sets
`hasShot`; `hasShot` is never cleared. -/
theorem enemyShoot_once (sqrt : ℚ → ℚ) (p : Player) (e : Enemy) (r : Rng) :
    (e.hasShot = true → (enemyShoot sqrt p e r).2.1 = []) ∧
    (enemyShoot sqrt p e r).2.1.length ≤ 1 ∧
    ((enemyShoot sqrt p e r).2.1 ≠ [] → (enemyShoot sqrt p e r).1.hasShot = true) ∧
    (e.hasShot = true → (enemyShoot sqrt p e r).1.hasShot = true) := by
  unfold enemyShoot
  simp only []
  refine ⟨?_, ?_, ?_, ?_⟩
  · intro h
    simp [h]
  · split_ifs <;> simp
  · split_ifs <;> simp
  · intro h
    simp [h]

theorem rngAtEnemy_zero (sqrt : ℚ → ℚ) (p : Player) (es : List Enemy) (r : Rng) :
    rngAtEnemy sqrt p es r 0 = r := by
  simp [rngAtEnemy, enemiesShootLoop]

theorem rngAtEnemy_succ (sqrt : ℚ → ℚ) (p : Player) (e : Enemy) (es : List Enemy) (r : Rng)
    (i : Nat) :
    rngAtEnemy sqrt p (e :: es) r (i + 1) = rngAtEnemy sqrt p es (enemyShoot sqrt p e r).2.2 i := by
  simp [rngAtEnemy, enemiesShootLoop]

theorem shotsAt_zero (sqrt : ℚ → ℚ) (p : Player) (e : Enemy) (es : List Enemy) (r : Rng) :
    shotsAt sqrt p (e :: es) r 0 = (enemyShoot sqrt p e r).2.1 := by
  simp [shotsAt, rngAtEnemy_zero]

theorem shotsAt_succ (sqrt : ℚ → ℚ) (p : Player) (e : Enemy) (es : List Enemy) (r : Rng)
    (i : Nat) :
    shotsAt sqrt p (e :: es) r (i + 1) = shotsAt sqrt p es (enemyShoot sqrt p e r).2.2 i := by
  simp [shotsAt, rngAtEnemy_succ]

/-- The enemy of index `i` comes out of the shooting loop as its own iteration
leaves it. -/
theorem enemiesShootLoop_getElem (sqrt : ℚ → ℚ) (p : Player) (es : List Enemy) (r : Rng)
    (i : Nat) (e : Enemy) (hi : es[i]? = some e) :
    (enemiesShootLoop sqrt p es r).1[i]? =
      some (enemyShoot sqrt p e (rngAtEnemy sqrt p es r i)).1 := by
  induction es generalizing r i with
  | nil => simp at hi
  | cons e0 es ih =>
    cases i with
    | zero =>
      simp only [List.getElem?_cons_zero, Option.some.injEq] at hi
      subst hi
      simp [enemiesShootLoop, rngAtEnemy_zero]
    | succ i =>
      simp only [List.getElem?_cons_succ] at hi
      simp only [enemiesShootLoop, List.getElem?_cons_succ, rngAtEnemy_succ]
      exact ih _ i hi

/-- The bullets the shooting loop appends are the bullets of its iterations, in
the order of the enemies. -/
theorem enemiesShootLoop_bullets (sqrt : ℚ → ℚ) (p : Player) (es : List Enemy) (r : Rng) :
    (enemiesShootLoop sqrt p es r).2.1 =
      ((List.range es.length).map (shotsAt sqrt p es r)).flatten := by
  induction es generalizing r with
  | nil => simp [enemiesShootLoop]
  | cons e es ih =>
    simp only [enemiesShootLoop, List.length_cons, List.range_succ_eq_map, List.map_cons,
      List.flatten_cons, shotsAt_zero, List.map_map]
    rw [ih]
    congr 2
    apply List.map_congr_left
    intro i _
    simp [shotsAt_succ]

theorem hitPlayerBullets_hasShot (e : Enemy) (bs : List PlayerBullet) (s : Int) :
    (hitPlayerBullets e bs s).1.hasShot = e.hasShot := by
  induction bs generalizing e s with
  | nil => rfl
  | cons b bs ih =>
    unfold hitPlayerBullets
    split_ifs
    · exact ih _ _
    · exact ih _ _

theorem updateEnemy_hasShot (e : Enemy) (g : Game) :
    (updateEnemy e g).1.hasShot = e.hasShot := by
  unfold updateEnemy
  split_ifs
  · simp only [hitPlayerBullets_hasShot]
    unfold moveEnemy
    simp only []
    split_ifs <;> rfl
  · rfl

theorem updateEnemiesLoop_hasShot (es : List Enemy) (g : Game) :
    (updateEnemiesLoop es g).1.map Enemy.hasShot = es.map Enemy.hasShot := by
  induction es generalizing g with
  | nil => rfl
  | cons e es ih => simp [updateEnemiesLoop, updateEnemy_hasShot, ih]

theorem clampEnemy_hasShot (e : Enemy) : (clampEnemy e).hasShot = e.hasShot := by
  unfold clampEnemy
  split <;> rfl

/-- Up to the shooting loop the gameplay step keeps every enemy's `hasShot` and
only appends to the list. -/
theorem beforeShooting_hasShot (inp : Input) (r : Rng) (g : Game) :
    ∃ l, (beforeShooting inp r g).1.enemies.map Enemy.hasShot =
      g.enemies.map Enemy.hasShot ++ l := by
  obtain ⟨l, hl⟩ := spawnEnemy_enemies r (updateEnemies (beforeEnemies inp g))
  refine ⟨l.map Enemy.hasShot, ?_⟩
  have hc : (Enemy.hasShot ∘ clampEnemy) = Enemy.hasShot := funext clampEnemy_hasShot
  simp only [beforeShooting, updateEnemyBullets, clampEnemies, List.map_map, hc, hl,
    List.map_append]
  simp [updateEnemies, updateEnemiesLoop_hasShot]

theorem gameplayToBoss_eq_shoot (sqrt : ℚ → ℚ) (inp : Input) (r : Rng) (g : Game) :
    gameplayToBoss sqrt inp r g =
      enemiesShoot sqrt (beforeShooting inp r g).2 (beforeShooting inp r g).1 := rfl

/-- The enemy bullets when the boss block is reached: those the bullet loop
left, then the shots of the enemies in the order of the list. -/
theorem gameplayToBoss_enemyBullets (sqrt : ℚ → ℚ) (inp : Input) (r : Rng) (g : Game) :
    (gameplayToBoss sqrt inp r g).1.enemyBullets =
      (beforeShooting inp r g).1.enemyBullets ++
        ((List.range (beforeShooting inp r g).1.enemies.length).map
          (shotsAt sqrt (beforeShooting inp r g).1.player (beforeShooting inp r g).1.enemies
            (beforeShooting inp r g).2)).flatten := by
  rw [gameplayToBoss_eq_shoot]
  simp only [enemiesShoot, enemiesShootLoop_bullets]

/-- One gameplay step and the enemy of index `i`. -/
theorem gameplay_enemy_shot (sqrt : ℚ → ℚ) (inp : Input) (r : Rng) (g : Game) (i : Nat)
    (e : Enemy) (hi : g.enemies[i]? = some e) :
    ∃ e0 e', (beforeShooting inp r g).1.enemies[i]? = some e0 ∧ e0.hasShot = e.hasShot ∧
      (gameplay sqrt inp r g).1.enemies[i]? = some e' ∧
      e' = (enemyShoot sqrt (beforeShooting inp r g).1.player e0
        (rngAtEnemy sqrt (beforeShooting inp r g).1.player (beforeShooting inp r g).1.enemies
          (beforeShooting inp r g).2 i)).1 ∧
      shotsAt sqrt (beforeShooting inp r g).1.player (beforeShooting inp r g).1.enemies
        (beforeShooting inp r g).2 i =
        (enemyShoot sqrt (beforeShooting inp r g).1.player e0
          (rngAtEnemy sqrt (beforeShooting inp r g).1.player (beforeShooting inp r g).1.enemies
            (beforeShooting inp r g).2 i)).2.1 := by
  obtain ⟨l, hl⟩ := beforeShooting_hasShot inp r g
  have hlt : i < g.enemies.length := by
    by_contra hge
    rw [List.getElem?_eq_none (by omega)] at hi
    cases hi
  have h0 : ((beforeShooting inp r g).1.enemies.map Enemy.hasShot)[i]? = some e.hasShot := by
    rw [hl, List.getElem?_append_left (by simpa using hlt), List.getElem?_map, hi]
    rfl
  rw [List.getElem?_map] at h0
  cases he0 : (beforeShooting inp r g).1.enemies[i]? with
  | none => simp [he0] at h0
  | some e0 =>
    simp only [he0, Option.map_some', Option.some.injEq] at h0
    refine ⟨e0, _, rfl, h0, ?_, rfl, ?_⟩
    · rw [gameplay_field Game.enemies sqrt inp r g (by simp) (by simp [gameplayAfterBoss]),
        gameplayToBoss_eq_shoot]
      simp only [enemiesShoot]
      exact enemiesShootLoop_getElem sqrt _ _ _ i e0 he0
    · simp [shotsAt, he0]

theorem storySequencer_enemies (inp : Input) (g : Game) :
    (storySequencer inp g).game.enemies = g.enemies ∨
    (storySequencer inp g).game.enemies = [] := by
  unfold storySequencer
  split_ifs
  · cases hv : storyVideo inp g with
    | done g' =>
      unfold storyVideo at hv
      simp only [] at hv
      split_ifs at hv <;> cases hv <;> exact Or.inl rfl
    | next g' =>
      have hg' : g'.enemies = g.enemies := by
        unfold storyVideo at hv
        simp only [] at hv
        split_ifs at hv <;> cases hv <;> rfl
      simp only []
      cases hc : g'.storyChapter
      cases hl : g'.storyLevel <;> simp only []
      · rw [← hg']
        unfold storyLevel1
        simp only []
        split_ifs <;> simp [Flow.game, initializeLevel]
      · rw [← hg']
        unfold storyLevel2
        simp only []
        split_ifs <;> simp [Flow.game, initializeLevel]
      · rw [← hg']
        unfold storyLevel3
        simp only []
        split_ifs <;> simp [Flow.game]
  · exact Or.inl rfl

/-- A call of `Update` that does not keep the enemies it finds has emptied the
list before the gameplay step: it never hands an old enemy on in a changed
place. -/
theorem beforeGameplay_enemies (inp : Input) (g : Game) :
    keepsEnemies inp g ∨ (beforeGameplay inp g).game.enemies = [] := by
  unfold keepsEnemies beforeGameplay beforeGameOverCheck
  split_ifs with h1 h2
  · left
    unfold languageScreen
    split_ifs <;> rfl
  · unfold startScreen
    split_ifs
    · exact Or.inr rfl
    · exact Or.inr rfl
    · exact Or.inl rfl
  · have hs := storySequencer_enemies inp g
    revert hs
    cases hq : storySequencer inp g with
    | done g' => exact fun hs => hs
    | next g' =>
      have hb : (menuButton inp (pauseButton inp g')).enemies = g'.enemies := by
        unfold menuButton pauseButton
        simp only []
        split_ifs <;> rfl
      simp only [Flow.game]
      intro hs
      split_ifs
      · simp only [Flow.game, hb]
        exact hs
      · simp only []
        unfold gameOverCheck
        simp only []
        split_ifs <;> simp [Flow.game, initializeGame, hb, hs]

/-- One call of `Update` that keeps the enemies, and the enemy of index `i`:
it is still there afterwards; if it had shot it has fired nothing and still has
`hasShot`; it fires at most one bullet; and if it fires, it has `hasShot`
afterwards. -/
theorem update_enemy_step (sqrt : ℚ → ℚ) (inp : Input) (r : Rng) (g : Game) (i : Nat)
    (e : Enemy) (hk : keepsEnemies inp g) (hi : g.enemies[i]? = some e) :
    ∃ e', (Update sqrt inp r g).1.enemies[i]? = some e' ∧
      (e.hasShot = true → e'.hasShot = true ∧ firedBy sqrt inp r g i = []) ∧
      (firedBy sqrt inp r g i).length ≤ 1 ∧
      (firedBy sqrt inp r g i ≠ [] → e'.hasShot = true) := by
  unfold keepsEnemies at hk
  unfold Update firedBy
  cases hq : beforeGameplay inp g with
  | done g1 =>
    rw [hq] at hk
    simp only [Flow.game] at hk
    refine ⟨e, by simp only []; rw [hk]; exact hi, fun h => ⟨h, rfl⟩, by simp, by simp⟩
  | next g1 =>
    rw [hq] at hk
    simp only [Flow.game] at hk
    obtain ⟨e0, e', -, h0, h1, h2, h3⟩ := gameplay_enemy_shot sqrt inp r g1 i e (by rw [hk]; exact hi)
    obtain ⟨o1, o2, o3, o4⟩ := enemyShoot_once sqrt (beforeShooting inp r g1).1.player e0
      (rngAtEnemy sqrt (beforeShooting inp r g1).1.player (beforeShooting inp r g1).1.enemies
        (beforeShooting inp r g1).2 i)
    simp only []
    rw [h3]
    rw [← h2] at o3 o4
    rw [h0] at o1 o4
    exact ⟨e', h1, fun h => ⟨o4 h, o1 h⟩, o2, o3⟩

theorem run_enemy_shots (sqrt : ℚ → ℚ) (inp : Nat → Input) (s : Game × Rng) (n i : Nat)
    (e : Enemy) (hi : s.1.enemies[i]? = some e)
    (hk : ∀ k < n, keepsEnemies (inp k) (run sqrt inp k s).1) :
    ∃ en, (run sqrt inp n s).1.enemies[i]? = some en ∧
      shotsInRun sqrt inp s i n ≤ 1 ∧
      (shotsInRun sqrt inp s i n = 1 → en.hasShot = true) ∧
      (e.hasShot = true → en.hasShot = true ∧ shotsInRun sqrt inp s i n = 0) := by
  induction n with
  | zero => exact ⟨e, hi, by simp [shotsInRun], by simp [shotsInRun], fun h => ⟨h, rfl⟩⟩
  | succ n ih =>
    obtain ⟨en, h1, h2, h3, h4⟩ := ih (fun k hk' => hk k (Nat.lt_succ_of_lt hk'))
    obtain ⟨e', u1, u2, u3, u4⟩ := update_enemy_step sqrt (inp n) (run sqrt inp n s).2
      (run sqrt inp n s).1 i en (hk n (Nat.lt_succ_self n)) h1
    refine ⟨e', u1, ?_, ?_, ?_⟩
    · simp only [shotsInRun]
      by_cases hs : en.hasShot = true
      · rw [(u2 hs).2]
        simpa using h2
      · have h0 : shotsInRun sqrt inp s i n = 0 := by
          by_contra hne
          exact hs (h3 (by omega))
        omega
    · intro htot
      by_cases hs : en.hasShot = true
      · exact (u2 hs).1
      · have h0 : shotsInRun sqrt inp s i n = 0 := by
          by_contra hne
          exact hs (h3 (by omega))
        apply u4
        intro hnil
        simp only [shotsInRun, h0, hnil, List.length_nil] at htot
        omega
    · intro he
      obtain ⟨a, b⟩ := h4 he
      obtain ⟨c, d⟩ := u2 a
      exact ⟨c, by simp [shotsInRun, b, d]⟩

/-- C15: each enemy fires at most once over its lifetime.  An iteration of the
shooting loop for an enemy whose `hasShot` is true appends no bullet; it appends
at most one bullet, and when it appends one the enemy has `hasShot = true` after
it; it never clears `hasShot`.  The bullets the loop appends are exactly those
of its iterations.  A call of `Update` either keeps the enemies it finds or has
emptied the list before the gameplay step.  In any run of `n` calls of `Update`
that keep the enemies, the enemy of index `i` is there after every call, never
goes from `hasShot = true` to `hasShot = false`, fires nothing in a call that
finds it with `hasShot = true`, has `hasShot = true` after a call in which it
fires; and the number of bullets it fires in the whole run is at most 1 (none if
it had shot before the run). -/
theorem enemy_fires_at_most_once (sqrt : ℚ → ℚ) (inp : Nat → Input) (s : Game × Rng)
    (n i : Nat) (e : Enemy) (hi : s.1.enemies[i]? = some e)
    (hk : ∀ k < n, keepsEnemies (inp k) (run sqrt inp k s).1) :
    (∀ (p : Player) (e0 : Enemy) (r : Rng),
      (e0.hasShot = true → (enemyShoot sqrt p e0 r).2.1 = []) ∧
      (enemyShoot sqrt p e0 r).2.1.length ≤ 1 ∧
      ((enemyShoot sqrt p e0 r).2.1 ≠ [] → (enemyShoot sqrt p e0 r).1.hasShot = true) ∧
      (e0.hasShot = true → (enemyShoot sqrt p e0 r).1.hasShot = true)) ∧
    (∀ (p : Player) (es : List Enemy) (r : Rng),
      (enemiesShootLoop sqrt p es r).2.1 =
        ((List.range es.length).map (shotsAt sqrt p es r)).flatten) ∧
    (∀ (inp0 : Input) (g : Game),
      keepsEnemies inp0 g ∨ (beforeGameplay inp0 g).game.enemies = []) ∧
    (∀ k < n, ∃ ek ek',
      (run sqrt inp k s).1.enemies[i]? = some ek ∧
      (run sqrt inp (k + 1) s).1.enemies[i]? = some ek' ∧
      (ek.hasShot = true → ek'.hasShot = true ∧
        firedBy sqrt (inp k) (run sqrt inp k s).2 (run sqrt inp k s).1 i = []) ∧
      (firedBy sqrt (inp k) (run sqrt inp k s).2 (run sqrt inp k s).1 i).length ≤ 1 ∧
      (firedBy sqrt (inp k) (run sqrt inp k s).2 (run sqrt inp k s).1 i ≠ [] →
        ek'.hasShot = true)) ∧
    shotsInRun sqrt inp s i n ≤ 1 ∧
    (e.hasShot = true → shotsInRun sqrt inp s i n = 0) := by
  obtain ⟨en, -, htot, -, hnone⟩ := run_enemy_shots sqrt inp s n i e hi hk
  refine ⟨enemyShoot_once sqrt, enemiesShootLoop_bullets sqrt, beforeGameplay_enemies, ?_, htot,
    fun he => (hnone he).2⟩
  · intro k hkn
    obtain ⟨ek, h1, -, -, -⟩ := run_enemy_shots sqrt inp s k i e hi
      (fun j hj => hk j (lt_trans hj hkn))
    obtain ⟨ek', u1, u2, u3, u4⟩ := update_enemy_step sqrt (inp k) (run sqrt inp k s).2
      (run sqrt inp k s).1 i ek (hk k hkn) h1
    exact ⟨ek, ek', h1, u1, u2, u3, u4⟩

section ConcreteC15

attribute [local simp] Update beforeGameplay beforeGameOverCheck competitionGame startScreen
  languageScreen initialGame idleInput initializeGame storySequencer menuButton pauseButton
  gameOverCheck gameplay gameplayToBoss updateBoss gameplayAfterBoss beforeEnemies movePlayer
  shoot updatePlayerBullets updateEnemies updateEnemiesLoop updateEnemy moveEnemy hitPlayer
  hitPlayerBullets movePlayerBullet newPlayerBullet spawnEnemy clampEnemies clampEnemy
  updateEnemyBullets updateEnemyBulletsLoop updateEnemyBullet moveEnemyBullet enemiesShoot
  enemiesShootLoop enemyShoot respawnPowerUp movePowerUp fallPowerUp eagerRng Rng.nextIntn
  Rng.nextFloat64 clamp collision Positioned.getX Positioned.getY screenWidth screenHeight
  shootCooldown shootSpeed powerUpRespawnTime Int.tmod run shotsInRun firedBy shotsAt
  rngAtEnemy beforeShooting keepsEnemies Flow.game grazingGame

theorem enemy_fires_at_most_once_witness :
    (∀ k < 1, keepsEnemies idleInput
      (run (fun q => q) (fun _ => idleInput) k (grazingGame, eagerRng)).1) ∧
    (firedBy (fun q => q) idleInput eagerRng grazingGame 0).length = 1 ∧
    shotsInRun (fun q => q) (fun _ => idleInput) (grazingGame, eagerRng) 0 1 ≤ 1 := by
  have hk : ∀ k < 1, keepsEnemies idleInput
      (run (fun q => q) (fun _ => idleInput) k (grazingGame, eagerRng)).1 := by
    intro k hk
    obtain rfl : k = 0 := by omega
    simp
  refine ⟨hk, ?_, (enemy_fires_at_most_once (fun q => q) (fun _ => idleInput)
    (grazingGame, eagerRng) 1 0
    { x := 100, y := 0, speedY := 3, active := true, hasShot := false } rfl hk).2.2.2.2.1⟩
  simp
  norm_num

end ConcreteC15

end Ghost
